import Mathlib

/-!
Verification of the annotation-extraction and export pipeline of the
just-the-comments application (src/vite.config.ts, second document: App).

The development shallowly embeds the relevant program fragments:

* a model of the dynamically typed JavaScript values that the external
  PDF parser hands to the extraction loop (`JSVal`), together with the
  JavaScript primitives the code applies to them (truthiness, typeof,
  property access, Array.prototype.join, JSON.stringify, String.prototype.trim,
  String.prototype.replace);
* the date normalisation function `formatDate` (lines 27-38), including a
  model of the ECMAScript Date.UTC / toISOString calendar arithmetic;
* the per-annotation extraction loop of handleFileSelect (lines 330-411)
  as `extractComments`;
* the three export renderers `saveCSV` (lines 160-197),
  `formatTextContent` (lines 200-245) and `copyCSVToClipboard`
  (lines 273-309), modelled as the pure string-building part of each.

Machine integers do not matter here (all numbers involved are small page
numbers and calendar quantities), so JavaScript numbers are modelled as `Int`.
-/

/-- Model of a JavaScript runtime value as far as the extraction code can
observe one: the annotation objects delivered by the external PDF parser are
untyped, so every field is one of these.  JavaScript numbers are modelled as
integers (no fractional or NaN values are produced by any code path the
development covers). -/
inductive JSVal where
  | undef : JSVal
  | null : JSVal
  | bool : Bool → JSVal
  | num : Int → JSVal
  | str : String → JSVal
  | arr : List JSVal → JSVal
  | obj : List (String × JSVal) → JSVal

instance : Inhabited JSVal := ⟨JSVal.undef⟩

/-- JavaScript truthiness: undefined, null, false, 0 and the empty string are
falsy; every object and array (even empty ones) is truthy. -/
def truthy : JSVal → Bool
  | JSVal.undef => false
  | JSVal.null => false
  | JSVal.bool b => b
  | JSVal.num n => n != 0
  | JSVal.str s => s != ""
  | JSVal.arr _ => true
  | JSVal.obj _ => true

/-- JavaScript typeof, restricted to the values of the model. -/
def jsTypeName : JSVal → String
  | JSVal.undef => "undefined"
  | JSVal.null => "object"
  | JSVal.bool _ => "boolean"
  | JSVal.num _ => "number"
  | JSVal.str _ => "string"
  | JSVal.arr _ => "object"
  | JSVal.obj _ => "object"

/-- Property access `v.k` for the property names the code reads.  On objects it
is an ordinary key lookup; on primitives and arrays the properties the code
asks for (str, text, ...) do not exist, so the access yields undefined.  The
code only dereferences values it has already checked to be truthy, so access
on null/undefined (which throws in JavaScript) is never reached. -/
def getField : JSVal → String → JSVal
  | JSVal.obj fields, k =>
      match fields.find? (fun p => p.1 == k) with
      | some p => p.2
      | none => JSVal.undef
  | _, _ => JSVal.undef

/-- The JavaScript `a || b` operator: the first operand if truthy, else the
second. -/
def jsOr (a b : JSVal) : JSVal := if truthy a then a else b

/-- Whether the value is an array, i.e. the Array.isArray test. -/
def isArray : JSVal → Bool
  | JSVal.arr _ => true
  | _ => false

mutual

/-- The JavaScript String() / toString conversion for the values of the model:
numbers print in decimal, arrays join their elements with commas (with null and
undefined elements becoming empty), plain objects print as
"[object Object]". -/
def jsToStringV : JSVal → String
  | JSVal.undef => "undefined"
  | JSVal.null => "null"
  | JSVal.bool b => if b then "true" else "false"
  | JSVal.num n => toString n
  | JSVal.str s => s
  | JSVal.arr xs => String.intercalate "," (jsElemStrs xs)
  | JSVal.obj _ => "[object Object]"

/-- Element conversion used by Array.prototype.join: null and undefined become
the empty string, every other element is converted with String(). -/
def jsElemStrs : List JSVal → List String
  | [] => []
  | JSVal.undef :: vs => "" :: jsElemStrs vs
  | JSVal.null :: vs => "" :: jsElemStrs vs
  | v :: vs => jsToStringV v :: jsElemStrs vs

end

/-- Escape of one character inside a JSON string literal. -/
def jsonEscapeChar (c : Char) : String :=
  if c = '\"' then "\\\""
  else if c = '\\' then "\\\\"
  else if c = (Char.ofNat 8) then "\\b"
  else if c = (Char.ofNat 12) then "\\f"
  else if c = '\n' then "\\n"
  else if c = '\r' then "\\r"
  else if c = '\t' then "\\t"
  else String.mk [c]

/-- A JSON string literal for s, as JSON.stringify produces it. -/
def jsonQuote (s : String) : String :=
  "\"" ++ String.join (s.data.map jsonEscapeChar) ++ "\""

mutual

/-- Model of JSON.stringify on the values of the model.  Top-level undefined
has no JSON representation (JSON.stringify returns undefined there), hence the
Option; inside arrays undefined serialises as null, and object entries whose
value is undefined are omitted. -/
def jsonStringifyVal : JSVal → Option String
  | JSVal.undef => none
  | JSVal.null => some "null"
  | JSVal.bool b => some (if b then "true" else "false")
  | JSVal.num n => some (toString n)
  | JSVal.str s => some (jsonQuote s)
  | JSVal.arr xs => some ("[" ++ String.intercalate "," (jsonArrStrs xs) ++ "]")
  | JSVal.obj fs => some ("\x7b" ++ String.intercalate "," (jsonObjStrs fs) ++ "\x7d")

/-- Serialised elements of a JSON array (undefined elements become null). -/
def jsonArrStrs : List JSVal → List String
  | [] => []
  | v :: vs => (jsonStringifyVal v).getD "null" :: jsonArrStrs vs

/-- Serialised members of a JSON object (members with undefined value are
omitted). -/
def jsonObjStrs : List (String × JSVal) → List String
  | [] => []
  | p :: fs =>
      (match jsonStringifyVal p.2 with
       | some sv => [jsonQuote p.1 ++ ":" ++ sv]
       | none => []) ++ jsonObjStrs fs

end

/-- The WhiteSpace and LineTerminator characters that String.prototype.trim
removes. -/
def jsWhitespaceChars : List Char :=
  [' ', '\t', '\n', '\r',
   Char.ofNat 0x0B, Char.ofNat 0x0C, Char.ofNat 0xA0, Char.ofNat 0x1680,
   Char.ofNat 0x2000, Char.ofNat 0x2001, Char.ofNat 0x2002, Char.ofNat 0x2003,
   Char.ofNat 0x2004, Char.ofNat 0x2005, Char.ofNat 0x2006, Char.ofNat 0x2007,
   Char.ofNat 0x2008, Char.ofNat 0x2009, Char.ofNat 0x200A, Char.ofNat 0x2028,
   Char.ofNat 0x2029, Char.ofNat 0x202F, Char.ofNat 0x205F, Char.ofNat 0x3000,
   Char.ofNat 0xFEFF]

/-- Whether trim removes this character. -/
def isJsSpace (c : Char) : Bool := jsWhitespaceChars.contains c

/-- Remove trailing whitespace from a character list. -/
def trimRight (l : List Char) : List Char :=
  (l.reverse.dropWhile isJsSpace).reverse

/-- Model of String.prototype.trim. -/
def jsTrim (s : String) : String :=
  String.mk (trimRight (s.data.dropWhile isJsSpace))

/-- Model of String.prototype.replace with a plain string pattern: only the
first occurrence of the pattern is replaced; if the pattern does not occur the
string is unchanged. -/
def jsReplaceOnce : List Char → List Char → List Char → List Char
  | [], _, _ => []
  | c :: rest, pat, rep =>
      if pat.isPrefixOf (c :: rest) then rep ++ (c :: rest).drop pat.length
      else c :: jsReplaceOnce rest pat rep

/-- String-level wrapper for `jsReplaceOnce`. -/
def jsStrReplace (s pat rep : String) : String :=
  String.mk (jsReplaceOnce s.data pat.data rep.data)

/-- The character for a decimal digit. -/
def digitChar (n : Nat) : Char := Char.ofNat (48 + n % 10)

/-- Two-digit zero-padded decimal, as toISOString prints month, day, hour,
minute and second (all of which are below 100). -/
def pad2 (n : Nat) : String := String.mk [digitChar (n / 10), digitChar n]

/-- Three-digit zero-padded decimal, for the milliseconds field. -/
def pad3 (n : Nat) : String :=
  String.mk [digitChar (n / 100), digitChar (n / 10), digitChar n]

/-- Four-digit zero-padded decimal, for years 0-9999. -/
def pad4 (n : Nat) : String :=
  String.mk [digitChar (n / 1000), digitChar (n / 100), digitChar (n / 10), digitChar n]

/-- Six-digit zero-padded decimal, for the expanded-year format of
toISOString. -/
def pad6 (n : Nat) : String :=
  String.mk [digitChar (n / 100000), digitChar (n / 10000), digitChar (n / 1000),
             digitChar (n / 100), digitChar (n / 10), digitChar n]

/-- Whether a Gregorian year is a leap year. -/
def isLeap (y : Int) : Bool := (y % 4 == 0 && y % 100 != 0) || y % 400 == 0

/-- Number of days in a month of a Gregorian year. -/
def daysInMonthI (y m : Int) : Int :=
  if m = 2 then (if isLeap y then 29 else 28)
  else if m = 4 ∨ m = 6 ∨ m = 9 ∨ m = 11 then 30
  else 31

/-- Days from the epoch 1970-01-01 to the civil date y-m-d (for 1 ≤ m ≤ 12;
d may lie outside the month, counting on from the first of the month, which is
exactly how the ECMAScript MakeDay operation treats the day argument).  Note
Lean integer division by a positive literal is floor division, matching the
ECMAScript calendar operations. -/
def daysFromCivil (y m d : Int) : Int :=
  let yAdj : Int := if m ≤ 2 then y - 1 else y
  let era : Int := yAdj / 400
  let yoe : Int := yAdj - era * 400
  let mp : Int := (m + 9) % 12
  let doy : Int := (153 * mp + 2) / 5 + d - 1
  let doe : Int := yoe * 365 + yoe / 4 - yoe / 100 + doy
  era * 146097 + doe - 719468

/-- The civil date (year, month, day) of a day count from the epoch
1970-01-01. -/
def civilFromDays (z : Int) : Int × Int × Int :=
  let z2 : Int := z + 719468
  let era : Int := z2 / 146097
  let doe : Int := z2 - era * 146097
  let yoe : Int := (doe - doe / 1460 + doe / 36524 - doe / 146096) / 365
  let y : Int := yoe + era * 400
  let doy : Int := doe - (365 * yoe + yoe / 4 - yoe / 100)
  let mp : Int := (5 * doy + 2) / 153
  let d : Int := doy - (153 * mp + 2) / 5 + 1
  let m : Int := mp + (if mp < 10 then 3 else -9)
  (y + (if m ≤ 2 then 1 else 0), m, d)

/-- The ECMAScript two-digit-year rule applied by Date.UTC: year arguments
from 0 to 99 denote 1900 to 1999. -/
def twoDigitYearFix (y : Int) : Int := if 0 ≤ y ∧ y ≤ 99 then 1900 + y else y

/-- ECMAScript MakeDay: the day number of year y, zero-based month m (which may
lie outside 0-11 and then rolls the year), day-of-month d. -/
def mkDay (y m d : Int) : Int :=
  daysFromCivil (y + m / 12) (m % 12 + 1) d

/-- The time value (milliseconds since the epoch) produced by
Date.UTC(y, m, d, h, mi, s): MakeDay combined with MakeTime and the
two-digit-year rule.  m is the zero-based month as in JavaScript. -/
def dateUTC (y m d h mi s : Int) : Int :=
  mkDay (twoDigitYearFix y) m d * 86400000 + (h * 3600000 + mi * 60000 + s * 1000)

/-- Model of Date.prototype.toISOString on a time value t in milliseconds.
Out of the representable range (|t| > 8.64e15 the date is invalid) the method
throws a RangeError, modelled as the error case.  Years 0-9999 print with four
digits, years outside that range in the expanded six-digit format with a
sign. -/
def jsToISOStringE (t : Int) : Except String String :=
  if 8640000000000000 < t.natAbs then Except.error "Invalid time value"
  else
    let ms : Int := t % 1000
    let s : Int := (t / 1000) % 60
    let mi : Int := (t / 60000) % 60
    let h : Int := (t / 3600000) % 24
    let day : Int := t / 86400000
    let c := civilFromDays day
    let yearStr : String :=
      if 0 ≤ c.1 ∧ c.1 ≤ 9999 then pad4 c.1.toNat
      else if c.1 < 0 then "-" ++ pad6 c.1.natAbs
      else "+" ++ pad6 c.1.toNat
    Except.ok (yearStr ++ "-" ++ pad2 c.2.1.toNat ++ "-" ++ pad2 c.2.2.toNat ++
      "T" ++ pad2 h.toNat ++ ":" ++ pad2 mi.toNat ++ ":" ++ pad2 s.toNat ++
      "." ++ pad3 ms.toNat ++ "Z")

/-- The numeric value of a decimal digit character. -/
def charVal (c : Char) : Nat := c.toNat - 48

/-- Attempt to match the regular expression
D:(dddd)(dd)(dd)(dd)(dd)(dd) (where d is a decimal digit) at the start of the
character list, returning the six captured groups as numbers.  Trailing
characters after the fourteen digits are ignored, exactly as the unanchored
source pattern ignores them. -/
def tryMatchPdfDate : List Char → Option (Nat × Nat × Nat × Nat × Nat × Nat)
  | 'D' :: ':' :: c1 :: c2 :: c3 :: c4 :: c5 :: c6 :: c7 :: c8 :: c9 :: c10 ::
      c11 :: c12 :: c13 :: c14 :: _ =>
      if (c1.isDigit && c2.isDigit && c3.isDigit && c4.isDigit && c5.isDigit &&
          c6.isDigit && c7.isDigit && c8.isDigit && c9.isDigit && c10.isDigit &&
          c11.isDigit && c12.isDigit && c13.isDigit && c14.isDigit) then
        some (1000 * charVal c1 + 100 * charVal c2 + 10 * charVal c3 + charVal c4,
              10 * charVal c5 + charVal c6,
              10 * charVal c7 + charVal c8,
              10 * charVal c9 + charVal c10,
              10 * charVal c11 + charVal c12,
              10 * charVal c13 + charVal c14)
      else none
  | _ => none

/-- RegExp.prototype.exec for the source pattern (no global flag): the match is
sought at every position from the left, and the first successful position
wins. -/
def execDateRegex : List Char → Option (Nat × Nat × Nat × Nat × Nat × Nat)
  | [] => none
  | c :: rest =>
      match tryMatchPdfDate (c :: rest) with
      | some r => some r
      | none => execDateRegex rest

/-- Parse an unsigned decimal number from exactly the given digit characters. -/
def digitsVal : List Char → Option Nat
  | [] => some 0
  | c :: rest =>
      if c.isDigit then (digitsVal rest).map (fun v => charVal c * 10 ^ rest.length + v)
      else none

/-- Validate and assemble a parsed calendar date-time into a time value. -/
def jsParseCivil (ys ms ds : List Char) (h mi s ms3 : Nat) : Option Int :=
  match digitsVal ys, digitsVal ms, digitsVal ds with
  | some y, some mo, some d =>
      if 1 ≤ mo ∧ mo ≤ 12 ∧ 1 ≤ d ∧ (d : Int) ≤ daysInMonthI (Int.ofNat y) (Int.ofNat mo) ∧
          h ≤ 23 ∧ mi ≤ 59 ∧ s ≤ 59 then
        some (daysFromCivil (Int.ofNat y) (Int.ofNat mo) (Int.ofNat d) * 86400000 +
          ((h : Int) * 3600000 + (mi : Int) * 60000 + (s : Int) * 1000 + (ms3 : Int)))
      else none
  | _, _, _ => none

/-- Assemble the time components of a parsed date-time string. -/
def jsParseTimed (ys ms ds hs is ss fs : List Char) : Option Int :=
  match digitsVal hs, digitsVal is, digitsVal (if ss = [] then ['0'] else ss),
      digitsVal (if fs = [] then ['0'] else fs) with
  | some h, some mi, some s, some f => jsParseCivil ys ms ds h mi s f
  | _, _, _, _ => none

/-- Model of the parse performed by the Date constructor on a string, returning
the time value in milliseconds when the string parses.  The model covers the
ECMAScript Date Time String Format in its common canonical shapes
(YYYY-MM-DD, optionally followed by THH:MM, THH:MM:SS or THH:MM:SS.sss, each
optionally suffixed with Z); other strings — in particular the
engine-specific legacy formats — are treated as unparseable.  The development
relies only on the parseable/unparseable distinction, never on a particular
parsed value. -/
def jsParseDate (s : String) : Option Int :=
  match s.data with
  | [y1, y2, y3, y4, '-', m1, m2, '-', d1, d2] =>
      jsParseCivil [y1, y2, y3, y4] [m1, m2] [d1, d2] 0 0 0 0
  | [y1, y2, y3, y4, '-', m1, m2, '-', d1, d2, 'T', h1, h2, ':', i1, i2] =>
      jsParseTimed [y1, y2, y3, y4] [m1, m2] [d1, d2] [h1, h2] [i1, i2] [] []
  | [y1, y2, y3, y4, '-', m1, m2, '-', d1, d2, 'T', h1, h2, ':', i1, i2, 'Z'] =>
      jsParseTimed [y1, y2, y3, y4] [m1, m2] [d1, d2] [h1, h2] [i1, i2] [] []
  | [y1, y2, y3, y4, '-', m1, m2, '-', d1, d2, 'T', h1, h2, ':', i1, i2, ':', s1, s2] =>
      jsParseTimed [y1, y2, y3, y4] [m1, m2] [d1, d2] [h1, h2] [i1, i2] [s1, s2] []
  | [y1, y2, y3, y4, '-', m1, m2, '-', d1, d2, 'T', h1, h2, ':', i1, i2, ':', s1, s2, 'Z'] =>
      jsParseTimed [y1, y2, y3, y4] [m1, m2] [d1, d2] [h1, h2] [i1, i2] [s1, s2] []
  | [y1, y2, y3, y4, '-', m1, m2, '-', d1, d2, 'T', h1, h2, ':', i1, i2, ':', s1, s2,
     '.', f1, f2, f3] =>
      jsParseTimed [y1, y2, y3, y4] [m1, m2] [d1, d2] [h1, h2] [i1, i2] [s1, s2] [f1, f2, f3]
  | [y1, y2, y3, y4, '-', m1, m2, '-', d1, d2, 'T', h1, h2, ':', i1, i2, ':', s1, s2,
     '.', f1, f2, f3, 'Z'] =>
      jsParseTimed [y1, y2, y3, y4] [m1, m2] [d1, d2] [h1, h2] [i1, i2] [s1, s2] [f1, f2, f3]
  | _ => none

/-- The time value observed by `new Date(v)` for a non-string argument, and the
string parse for strings: numbers are taken as a millisecond time value
directly, booleans and null coerce through ToNumber, arrays coerce to their
join string and are then parsed, plain objects coerce to "[object Object]"
which never parses, and undefined gives an invalid date.  The `none` result
stands for an invalid date, on which toISOString throws. -/
def jsNewDateMs : JSVal → Option Int
  | JSVal.num n => some n
  | JSVal.str s => jsParseDate s
  | JSVal.bool b => some (if b then 1 else 0)
  | JSVal.null => some 0
  | JSVal.undef => none
  | JSVal.arr xs => jsParseDate (jsToStringV (JSVal.arr xs))
  | JSVal.obj _ => none

/-- The date normalisation function formatDate of src/vite.config.ts lines
27-38, lifted to the JavaScript-value model of its argument (the call site
passes whatever the annotation fields held).  A falsy argument yields the empty
string; a match of the unanchored pattern D:(dddd)(dd)(dd)(dd)(dd)(dd) is fed
through Date.UTC and toISOString and then through the two replace calls
(T becomes a space, the .000Z suffix becomes Z); otherwise the value goes
through the Date constructor, whose toISOString throws a RangeError
(Invalid time value) when the value did not parse — surfaced here as the
error case of Except. -/
def formatDate (ts : JSVal) : Except String String :=
  if truthy ts = false then Except.ok ""
  else
    match execDateRegex (jsToStringV ts).data with
    | some (y, mo, d, h, mi, s) =>
        (jsToISOStringE (dateUTC (y : Int) ((mo : Int) - 1) (d : Int)
            (h : Int) (mi : Int) (s : Int))).map
          (fun iso => jsStrReplace (jsStrReplace iso "T" " ") ".000Z" "Z")
    | none =>
        match jsNewDateMs ts with
        | some t => jsToISOStringE t
        | none => Except.error "Invalid time value"

/-- An annotation object as returned by the external PDF parser, restricted to
the fields the extraction loop reads.  Every field is an arbitrary JavaScript
value; a field the producer did not set is undefined. -/
structure Annot where
  subtype : JSVal := JSVal.undef
  annotationType : JSVal := JSVal.undef
  contents : JSVal := JSVal.undef
  contentsObj : JSVal := JSVal.undef
  titleObj : JSVal := JSVal.undef
  title : JSVal := JSVal.undef
  T : JSVal := JSVal.undef
  user : JSVal := JSVal.undef
  author : JSVal := JSVal.undef
  userName : JSVal := JSVal.undef
  modificationDate : JSVal := JSVal.undef
  modDate : JSVal := JSVal.undef
  modified : JSVal := JSVal.undef

/-- One extracted comment record (interface CommentEntry, lines 20-25).  The
declared TypeScript type has four string/number fields, but the author value is
pushed into the record exactly as the fallback chain produced it, which the
type system does not check at runtime; the model therefore keeps the author as
a JavaScript value. -/
structure CommentEntry where
  Page : Nat
  Author : JSVal
  Comment : String
  Modified : String

instance : Inhabited CommentEntry := ⟨⟨1, JSVal.undef, "", ""⟩⟩

/-- The effective subtype of an annotation:
`a.subtype || a.annotationType || ""` (line 340). -/
def subtypeOf (a : Annot) : JSVal :=
  jsOr (jsOr a.subtype a.annotationType) (JSVal.str "")

/-- The contents value selected by lines 345-369: a string contents field is
taken as is (even when empty); otherwise a truthy object-typed contents is
unwrapped through .str, then .text, then Array join with spaces, then
JSON.stringify; otherwise a truthy contentsObj is taken as a string or
unwrapped through .str or JSON.stringify; otherwise the empty string
remains. -/
def contentsOf (a : Annot) : JSVal :=
  if jsTypeName a.contents = "string" then a.contents
  else if truthy a.contents && (jsTypeName a.contents == "object") then
    (if truthy (getField a.contents "str") then getField a.contents "str"
     else if truthy (getField a.contents "text") then getField a.contents "text"
     else if isArray a.contents then
       JSVal.str (String.intercalate " " (jsElemStrs (match a.contents with
         | JSVal.arr xs => xs
         | _ => [])))
     else JSVal.str ((jsonStringifyVal a.contents).getD "undefined"))
  else if truthy a.contentsObj then
    (if jsTypeName a.contentsObj = "string" then a.contentsObj
     else if truthy (getField a.contentsObj "str") then getField a.contentsObj "str"
     else JSVal.str ((jsonStringifyVal a.contentsObj).getD "undefined"))
  else JSVal.str ""

/-- The author value selected by lines 371-386: titleObj.str when titleObj and
its .str are truthy, else a truthy title, else a truthy T (taken as is when a
string, else its .str field or the empty string), else a truthy user, author or
userName, else the empty string. -/
def authorOf (a : Annot) : JSVal :=
  if truthy a.titleObj && truthy (getField a.titleObj "str") then getField a.titleObj "str"
  else if truthy a.title then a.title
  else if truthy a.T then
    (if jsTypeName a.T = "string" then a.T else jsOr (getField a.T "str") (JSVal.str ""))
  else if truthy a.user then a.user
  else if truthy a.author then a.author
  else if truthy a.userName then a.userName
  else JSVal.str ""

/-- The raw modification timestamp of line 388:
`a.modificationDate || a.modDate || a.modified || ""`. -/
def modOf (a : Annot) : JSVal :=
  jsOr (jsOr (jsOr a.modificationDate a.modDate) a.modified) (JSVal.str "")

/-- Processing of a single annotation by the loop body of lines 339-399.
A non-Text subtype, falsy contents, or contents trimming to the empty string
produce no record; otherwise a record with the trimmed contents, the selected
author and the normalised date is produced.  The two JavaScript calls in the
body that can throw are contents.trim() — a TypeError when the selected
contents value is truthy but not a string — and formatDate — a RangeError
when the raw timestamp is truthy but unparseable; both surface as the error
case, which the surrounding try/catch of handleFileSelect turns into a
whole-run failure. -/
def processAnnot (pageNum : Nat) (a : Annot) : Except String (Option CommentEntry) :=
  match subtypeOf a with
  | JSVal.str s =>
      if s = "Text" then
        match contentsOf a with
        | JSVal.str cs =>
            if cs = "" then Except.ok none
            else if jsTrim cs = "" then Except.ok none
            else
              (formatDate (modOf a)).map (fun md =>
                some ⟨pageNum, authorOf a, jsTrim cs, md⟩)
        | c =>
            if truthy c then Except.error "contents.trim is not a function"
            else Except.ok none
      else Except.ok none
  | _ => Except.ok none

/-- Processing of the annotations of one page, in the order the parser
returned them (the inner for-of loop of line 339). -/
def extractPage (pageNum : Nat) : List Annot → Except String (List CommentEntry)
  | [] => Except.ok []
  | a :: rest =>
      match processAnnot pageNum a with
      | Except.error e => Except.error e
      | Except.ok r =>
          match extractPage pageNum rest with
          | Except.error e => Except.error e
          | Except.ok rs =>
              Except.ok (match r with
                | some c => c :: rs
                | none => rs)

/-- The page loop of line 336, processing pages in ascending order starting at
the given page number. -/
def extractFrom (pageNum : Nat) : List (List Annot) → Except String (List CommentEntry)
  | [] => Except.ok []
  | pg :: pgs =>
      match extractPage pageNum pg with
      | Except.error e => Except.error e
      | Except.ok rs =>
          match extractFrom (pageNum + 1) pgs with
          | Except.error e => Except.error e
          | Except.ok more => Except.ok (rs ++ more)

/-- The extraction pipeline of handleFileSelect (lines 330-411) on a parsed
document, represented as the list of per-page annotation lists; page numbers
are 1-based positions.  An error corresponds to the catch branch of
handleFileSelect: the error message is shown and no records are delivered. -/
def extractComments (doc : List (List Annot)) : Except String (List CommentEntry) :=
  extractFrom 1 doc

/-- The column-visibility state (DEFAULT_COLUMNS, lines 94-100): one flag per
key of the columnVisibility object, in its fixed insertion order Page, Author,
Modified, Comment, __check__.  The last flag models the UI-only __check__
key. -/
structure ColumnVisibility where
  Page : Bool := true
  Author : Bool := false
  Modified : Bool := false
  Comment : Bool := true
  checkCol : Bool := true

/-- The keys of the columnVisibility object in insertion order, as
Object.keys enumerates them. -/
def columnKeys : List String := ["Page", "Author", "Modified", "Comment", "__check__"]

/-- The flag stored under a key of the columnVisibility object. -/
def flagOf (cv : ColumnVisibility) : String → Bool
  | "Page" => cv.Page
  | "Author" => cv.Author
  | "Modified" => cv.Modified
  | "Comment" => cv.Comment
  | "__check__" => cv.checkCol
  | _ => false

/-- The enabled export fields:
`Object.keys(columnVisibility).filter(col => columnVisibility[col] && col !== '__check__')`,
the common first step of saveCSV (162-163), formatTextContent (202-203) and
copyCSVToClipboard (275-276). -/
def selectedFieldsOf (cv : ColumnVisibility) : List String :=
  columnKeys.filter (fun col => flagOf cv col && col != "__check__")

/-- The row subset common to the three renderers (lines 167-169, 207-209,
280-282): when some rows are selected, each selected index is looked up in the
record list — in the order the indices appear in the selection — and failed
lookups are discarded by .filter(Boolean); when the selection is empty, all
records are used. -/
def selectedCommentsOf (recs : List CommentEntry) (sel : List Nat) : List CommentEntry :=
  if sel.length > 0 then (sel.map (fun i => recs[i]?)).reduceOption
  else recs

/-- The dynamic field read `(c as any)[field]?.toString() || ""` used by the
table renderers (lines 187 and 295). -/
def fieldStr (c : CommentEntry) (f : String) : String :=
  match f with
  | "Page" => jsToStringV (JSVal.num (Int.ofNat c.Page))
  | "Author" =>
      match c.Author with
      | JSVal.undef => ""
      | JSVal.null => ""
      | v => jsToStringV v
  | "Comment" => c.Comment
  | "Modified" => c.Modified
  | _ => ""

/-- Whether a CSV field value must be quoted when it is not a comment: it
contains a comma, a double quote, or a line terminator (line 179). -/
def hasCSVSpecial (value : String) : Bool :=
  value.data.contains ',' || value.data.contains '\"' ||
    value.data.contains '\n' || value.data.contains '\r'

/-- Double every double-quote character, the escaping applied inside quoted
fields (the global-regex replace of lines 176 and 180). -/
def dupQuotes (value : String) : String :=
  String.mk (value.data.flatMap (fun c => if c = '\"' then ['\"', '\"'] else [c]))

/-- The escapeCSVField helper of saveCSV (lines 172-183): empty values pass
through unquoted, a Comment field is always quoted with doubled inner quotes,
any other field is quoted only when it contains a comma, quote or line
terminator. -/
def escapeCSVField (value : String) (fieldName : String) : String :=
  if value = "" then ""
  else if fieldName = "Comment" then "\"" ++ dupQuotes value ++ "\""
  else if hasCSVSpecial value then "\"" ++ dupQuotes value ++ "\""
  else value

/-- The CSV text built by saveCSV (lines 160-196): the enabled field names as
a header row, then one row per selected record with escaped cells, all joined
with newlines.  The early return on zero enabled fields (line 164, no file is
written) is modelled as the empty string; the surrounding blob construction and
file-save call are external sinks outside the model. -/
def saveCSV (recs : List CommentEntry) (sel : List Nat) (cv : ColumnVisibility) : String :=
  let selectedFields := selectedFieldsOf cv
  if selectedFields = [] then ""
  else
    let selectedComments := selectedCommentsOf recs sel
    let rows := selectedComments.map (fun c =>
      String.intercalate "," (selectedFields.map (fun field =>
        escapeCSVField (fieldStr c field) field)))
    String.intercalate "\n" (String.intercalate "," selectedFields :: rows)

/-- The human-readable text built by formatTextContent (lines 200-245): per
record a prefix assembled from the enabled Page (as P followed by the page
number), a truthy Author and a non-empty Modified joined by comma-space; with
the Comment enabled the line is the prefix, a dash and the comment (or the bare
comment when the prefix is empty), otherwise the bare prefix; lines joined by a
blank line. -/
def formatTextContent (recs : List CommentEntry) (sel : List Nat) (cv : ColumnVisibility) : String :=
  let selectedFields := selectedFieldsOf cv
  if selectedFields = [] then ""
  else
    let selectedComments := selectedCommentsOf recs sel
    let lines := selectedComments.map (fun c =>
      let parts : List JSVal :=
        (if selectedFields.contains "Page" then [JSVal.str ("P" ++ toString c.Page)] else [])
        ++ (if selectedFields.contains "Author" && truthy c.Author then [c.Author] else [])
        ++ (if selectedFields.contains "Modified" && (c.Modified != "") then
              [JSVal.str c.Modified] else [])
      let pfx := if parts.length > 0 then String.intercalate ", " (jsElemStrs parts) else ""
      if selectedFields.contains "Comment" then
        (if pfx != "" then pfx ++ " - " ++ c.Comment else c.Comment)
      else pfx)
    String.intercalate "\n\n" lines

/-- The escapeTSVField helper of copyCSVToClipboard (lines 285-289): empty
values become an empty quoted field, every other value is quoted with doubled
inner quotes. -/
def escapeTSVField (value : String) : String :=
  if value = "" then "\"\""
  else "\"" ++ dupQuotes value ++ "\""

/-- The TSV text built by copyCSVToClipboard (lines 273-298): quoted header
cells and quoted data cells joined by tabs, rows joined by newlines.  The early
return on zero enabled fields is modelled as the empty string; the clipboard
write is an external sink outside the model. -/
def copyCSVToClipboard (recs : List CommentEntry) (sel : List Nat) (cv : ColumnVisibility) : String :=
  let selectedFields := selectedFieldsOf cv
  if selectedFields = [] then ""
  else
    let selectedComments := selectedCommentsOf recs sel
    let header := String.intercalate "\t" (selectedFields.map escapeTSVField)
    let rows := selectedComments.map (fun c =>
      String.intercalate "\t" (selectedFields.map (fun field =>
        escapeTSVField (fieldStr c field))))
    String.intercalate "\n" (header :: rows)

/-- The author fallback chain as an explicit ordered list of guarded
alternatives: each entry pairs the applicability test of one source with the
value that source yields.  The first applicable entry wins. -/
def authorChain (a : Annot) : List (Bool × JSVal) :=
  [ (truthy a.titleObj && truthy (getField a.titleObj "str"), getField a.titleObj "str"),
    (truthy a.title, a.title),
    (truthy a.T,
      if jsTypeName a.T = "string" then a.T else jsOr (getField a.T "str") (JSVal.str "")),
    (truthy a.user, a.user),
    (truthy a.author, a.author),
    (truthy a.userName, a.userName) ]

/-- The author the chain view selects: the value of the first applicable
alternative, or the empty string when none applies. -/
def authorSpec (a : Annot) : JSVal :=
  match (authorChain a).find? (fun g => g.1) with
  | some g => g.2
  | none => JSVal.str ""

/-- One line of the human-readable rendering, written after the specification
wording: a prefix of the enabled non-comment fields in the order page
(as P followed by the page number), author only if non-empty, modified only if
non-empty, joined with comma-space; then the prefix, a dash and the comment
when both are present, the bare comment when the prefix is empty, and the bare
prefix when the comment column is disabled.  Stated for records whose author is
a string, matching the declared record type. -/
def specTextLine (cv : ColumnVisibility) (c : CommentEntry) : String :=
  let parts : List String :=
    (if cv.Page then ["P" ++ toString c.Page] else [])
    ++ (if cv.Author ∧ jsToStringV c.Author ≠ "" then [jsToStringV c.Author] else [])
    ++ (if cv.Modified ∧ c.Modified ≠ "" then [c.Modified] else [])
  let pfx := String.intercalate ", " parts
  if cv.Comment then (if pfx ≠ "" then pfx ++ " - " ++ c.Comment else c.Comment)
  else pfx

/-- A document consisting of one page with one Text annotation that has a
present but empty subtype field next to a Text-valued annotationType, used to
probe which of the two fields determines the subtype. -/
def annSubtypeProbe : Annot :=
  { subtype := JSVal.str "", annotationType := JSVal.str "Text", contents := JSVal.str "hi" }

/-- A Text annotation whose contents field is the empty string while its
contentsObj field carries text, used to probe whether later sources of the
content fallback chain are consulted. -/
def annContentsProbe : Annot :=
  { subtype := JSVal.str "Text", contents := JSVal.str "", contentsObj := JSVal.str "hello" }

/-- A Text annotation whose T field is a truthy object without a str
sub-field while the later user field carries a name, used to probe whether the
author chain keeps searching after a truthy but unproductive field. -/
def annAuthorProbe : Annot :=
  { subtype := JSVal.str "Text", contents := JSVal.str "hi",
    T := JSVal.obj [], user := JSVal.str "Bob" }

/-- A Text annotation with comment text and an unparseable modification
timestamp. -/
def annBadDate : Annot :=
  { subtype := JSVal.str "Text", contents := JSVal.str "First comment",
    modificationDate := JSVal.str "not-a-date" }

/-- A Text annotation with comment text and no metadata. -/
def annPlain : Annot :=
  { subtype := JSVal.str "Text", contents := JSVal.str "Second comment" }

/-- Two records with distinct comments on distinct pages, used by the
selection-order probes. -/
def recPair : List CommentEntry :=
  [⟨1, JSVal.str "", "A", ""⟩, ⟨2, JSVal.str "", "B", ""⟩]

/-- The projection with only the comment column enabled. -/
def cvCommentOnly : ColumnVisibility :=
  { Page := false, Author := false, Modified := false, Comment := true, checkCol := true }

/-! Helper lemmas about trimming, selection and column flags. -/

theorem dropWhile_self (p : Char → Bool) (l : List Char) :
    (l.dropWhile p).dropWhile p = l.dropWhile p := by
  induction l with
  | nil => rfl
  | cons c t ih =>
      by_cases h : p c
      · simpa [List.dropWhile_cons, h] using ih
      · simp [List.dropWhile_cons, h]

theorem trimRight_trimRight (l : List Char) : trimRight (trimRight l) = trimRight l := by
  simp [trimRight, dropWhile_self]

theorem dropWhile_head_false (p : Char → Bool) (l : List Char) (c : Char) (t : List Char)
    (h : l.dropWhile p = c :: t) : p c = false := by
  induction l with
  | nil => simp at h
  | cons a rest ih =>
      by_cases hpa : p a
      · rw [List.dropWhile_cons_of_pos hpa] at h
        exact ih h
      · rw [List.dropWhile_cons_of_neg hpa] at h
        cases h
        simpa using hpa

theorem dropWhile_trimRight_cons (c : Char) (t : List Char) (hc : isJsSpace c = false) :
    (trimRight (c :: t)).dropWhile isJsSpace = trimRight (c :: t) := by
  unfold trimRight
  rw [List.reverse_cons, List.dropWhile_append]
  cases h : (t.reverse.dropWhile isJsSpace).isEmpty with
  | true =>
      simp only [h, if_true]
      simp [List.dropWhile_cons, hc]
  | false =>
      simp only [h, if_false, Bool.false_eq_true]
      rw [List.reverse_append]
      simp [List.dropWhile_cons, hc]

theorem jsTrim_idem (s : String) : jsTrim (jsTrim s) = jsTrim s := by
  unfold jsTrim
  congr 1
  show trimRight (((s.data.dropWhile isJsSpace) |> trimRight).dropWhile isJsSpace) = _
  rcases hu : s.data.dropWhile isJsSpace with _ | ⟨c, t⟩
  · rfl
  · rw [dropWhile_trimRight_cons c t (dropWhile_head_false isJsSpace s.data c t hu),
      trimRight_trimRight]

theorem selectedCommentsOf_nil (recs : List CommentEntry) :
    selectedCommentsOf recs [] = recs := rfl

theorem selectedCommentsOf_pos (recs : List CommentEntry) (sel : List Nat) (h : sel ≠ []) :
    selectedCommentsOf recs sel = sel.filterMap (fun i => recs[i]?) := by
  unfold selectedCommentsOf
  rw [if_pos (by cases sel with | nil => exact absurd rfl h | cons a t => simp)]
  rw [show ((sel.map fun i => recs[i]?)).reduceOption
      = (sel.map fun i => recs[i]?).filterMap id from rfl]
  rw [List.filterMap_map]
  rfl

theorem filterMap_getElem (recs : List CommentEntry) (sel : List Nat) :
    sel.filterMap (fun i => recs[i]?) =
      (sel.filter (fun i => i < recs.length)).map (fun i => recs.getD i default) := by
  induction sel with
  | nil => rfl
  | cons i t ih =>
      by_cases h : i < recs.length
      · have h1 : recs[i]? = some recs[i] := List.getElem?_eq_getElem h
        simp only [List.filterMap_cons, h1, List.filter_cons, ih]
        rw [if_pos (by simpa using h), List.map_cons]
        congr 1
        rw [List.getD_eq_getElem?_getD, h1]
        rfl
      · have h1 : recs[i]? = none := List.getElem?_eq_none (by omega)
        simp only [List.filterMap_cons, h1, List.filter_cons, ih]
        rw [if_neg (by simpa using h)]

theorem mem_selectedCommentsOf (recs : List CommentEntry) (sel : List Nat)
    (c : CommentEntry) (h : c ∈ selectedCommentsOf recs sel) : c ∈ recs := by
  unfold selectedCommentsOf at h
  split at h
  · rw [show ((sel.map fun i => recs[i]?)).reduceOption
        = (sel.map fun i => recs[i]?).filterMap id from rfl, List.filterMap_map] at h
    obtain ⟨i, _, hget⟩ := List.mem_filterMap.mp h
    exact List.getElem?_mem hget
  · exact h

theorem contains_Page (cv : ColumnVisibility) :
    (selectedFieldsOf cv).contains "Page" = cv.Page := by
  rcases cv with ⟨p, a, m, c, k⟩
  cases p <;> cases a <;> cases m <;> cases c <;> cases k <;> rfl

theorem contains_Author (cv : ColumnVisibility) :
    (selectedFieldsOf cv).contains "Author" = cv.Author := by
  rcases cv with ⟨p, a, m, c, k⟩
  cases p <;> cases a <;> cases m <;> cases c <;> cases k <;> rfl

theorem contains_Modified (cv : ColumnVisibility) :
    (selectedFieldsOf cv).contains "Modified" = cv.Modified := by
  rcases cv with ⟨p, a, m, c, k⟩
  cases p <;> cases a <;> cases m <;> cases c <;> cases k <;> rfl

theorem contains_Comment (cv : ColumnVisibility) :
    (selectedFieldsOf cv).contains "Comment" = cv.Comment := by
  rcases cv with ⟨p, a, m, c, k⟩
  cases p <;> cases a <;> cases m <;> cases c <;> cases k <;> rfl

/-- C8: in the CSV text the comment cell is always double-quote wrapped with
inner double quotes doubled — the value of a comment cell coming from the
extraction pipeline is never empty, which the non-emptiness hypothesis
reflects — and every other cell is quoted in the same way exactly when its
value contains a comma, a double quote or a line terminator, passing through
verbatim otherwise. -/
theorem claim8_csv_escaping (v f : String) :
    (f = "Comment" → v ≠ "" → escapeCSVField v f = "\"" ++ dupQuotes v ++ "\"")
    ∧ (f ≠ "Comment" →
        escapeCSVField v f = if hasCSVSpecial v then "\"" ++ dupQuotes v ++ "\"" else v) := by
  constructor
  · intro hf hv
    simp [escapeCSVField, hf, hv]
  · intro hf
    by_cases hv : v = ""
    · subst hv
      rw [show hasCSVSpecial "" = false from rfl]
      simp [escapeCSVField]
    · simp [escapeCSVField, hv, hf]

/-- Witness for C8 at concrete values: a comment with an inner quote, a
comma-carrying non-comment cell, and a plain non-comment cell. -/
theorem claim8_witness :
    escapeCSVField "say \"hi\"" "Comment" = "\"say \"\"hi\"\"\""
    ∧ escapeCSVField "a,b" "Page" = "\"a,b\""
    ∧ escapeCSVField "alice" "Author" = "alice" := by
  refine ⟨?_, ?_, ?_⟩
  · have h := (claim8_csv_escaping "say \"hi\"" "Comment").1 rfl (by decide)
    rw [h]; rfl
  · have h := (claim8_csv_escaping "a,b" "Page").2 (by decide)
    rw [h]; rfl
  · have h := (claim8_csv_escaping "alice" "Author").2 (by decide)
    rw [h]; rfl

/-- Counterexample to C5 as stated: the export of the renderers follows the
order in which the indices appear in the selection, not the original record
order — selecting the two records of `recPair` in the orders 1,0 and 0,1
produces different outputs, although the claim demands that both equal the
original-order export. -/
theorem claim5_counterexample :
    formatTextContent recPair [1, 0] cvCommentOnly = "B\n\nA"
    ∧ formatTextContent recPair [0, 1] cvCommentOnly = "A\n\nB"
    ∧ ("B\n\nA" : String) ≠ "A\n\nB" := by
  refine ⟨rfl, rfl, by decide⟩

/-- C5 (corrected): an empty selection exports every record; a non-empty
selection of in-range indices exports exactly the records at those indices, in
the order the indices appear in the selection, and the renderers render
precisely that subset. -/
theorem claim5_selection (recs : List CommentEntry) (sel : List Nat)
    (cv : ColumnVisibility) (hin : ∀ i ∈ sel, i < recs.length) :
    selectedCommentsOf recs [] = recs
    ∧ (sel ≠ [] → selectedCommentsOf recs sel = sel.map (fun i => recs.getD i default))
    ∧ (sel ≠ [] → formatTextContent recs sel cv
        = formatTextContent (sel.map (fun i => recs.getD i default)) [] cv)
    ∧ (sel ≠ [] → saveCSV recs sel cv
        = saveCSV (sel.map (fun i => recs.getD i default)) [] cv) := by
  have hsub : sel ≠ [] → selectedCommentsOf recs sel = sel.map (fun i => recs.getD i default) := by
    intro h
    rw [selectedCommentsOf_pos recs sel h, filterMap_getElem]
    congr 1
    exact List.filter_eq_self.mpr (fun i hi => by simpa using hin i hi)
  refine ⟨rfl, hsub, fun h => ?_, fun h => ?_⟩
  · rw [show formatTextContent recs sel cv
        = formatTextContent (selectedCommentsOf recs sel) [] cv from rfl, hsub h]
  · rw [show saveCSV recs sel cv
        = saveCSV (selectedCommentsOf recs sel) [] cv from rfl, hsub h]

/-- Witness for C5 at the selection 1,0 over the two-record list. -/
theorem claim5_witness :
    selectedCommentsOf recPair [] = recPair
    ∧ selectedCommentsOf recPair [1, 0]
        = [⟨2, JSVal.str "", "B", ""⟩, ⟨1, JSVal.str "", "A", ""⟩] := by
  have h := claim5_selection recPair [1, 0] cvCommentOnly (by decide)
  refine ⟨h.1, ?_⟩
  rw [h.2.1 (by decide)]
  rfl

/-- C10: out-of-range indices of a non-empty selection are silently dropped by
the shared subset computation: the subset consists exactly of the records at
the in-range selected indices, every subset element is one of the records, and
each of the three renderers renders exactly that subset. -/
theorem claim10_oob (recs : List CommentEntry) (sel : List Nat) (cv : ColumnVisibility)
    (h : sel ≠ []) :
    selectedCommentsOf recs sel
      = (sel.filter (fun i => i < recs.length)).map (fun i => recs.getD i default)
    ∧ (∀ c ∈ selectedCommentsOf recs sel, c ∈ recs)
    ∧ saveCSV recs sel cv = saveCSV (selectedCommentsOf recs sel) [] cv
    ∧ formatTextContent recs sel cv = formatTextContent (selectedCommentsOf recs sel) [] cv
    ∧ copyCSVToClipboard recs sel cv
        = copyCSVToClipboard (selectedCommentsOf recs sel) [] cv := by
  refine ⟨?_, fun c hc => mem_selectedCommentsOf recs sel c hc, rfl, rfl, rfl⟩
  rw [selectedCommentsOf_pos recs sel h, filterMap_getElem]

/-- Witness for C10: index 5 is out of range for the two-record list and
contributes no row. -/
theorem claim10_witness :
    selectedCommentsOf recPair [1, 5] = [⟨2, JSVal.str "", "B", ""⟩]
    ∧ formatTextContent recPair [1, 5] cvCommentOnly = "B" := by
  have h := claim10_oob recPair [1, 5] cvCommentOnly (by decide)
  refine ⟨h.1.trans (by rfl), (h.2.2.2.1).trans ?_⟩
  rw [h.1]
  rfl

/-- Counterexample to C7 as stated: on an annotation whose T field is a truthy
object without a str sub-field while the later user field holds "Bob", the code
stops at the T field and yields the empty author instead of continuing to the
first non-empty source. -/
theorem claim7_counterexample :
    authorOf annAuthorProbe = JSVal.str ""
    ∧ annAuthorProbe.user = JSVal.str "Bob"
    ∧ JSVal.str "" ≠ JSVal.str "Bob" := by
  refine ⟨rfl, rfl, by simp⟩

/-- C7 (corrected): the author equals the value of the first alternative of the
six-step chain whose guard is truthy — the guards test field truthiness, so a
truthy but unproductive T field ends the search with the empty string — and
the empty string results when no guard fires. -/
theorem claim7_author_chain (a : Annot) : authorOf a = authorSpec a := by
  unfold authorOf authorSpec authorChain
  cases h1 : truthy a.titleObj <;>
    cases h2 : truthy (getField a.titleObj "str") <;>
    cases h3 : truthy a.title <;>
    cases h4 : truthy a.T <;>
    cases h5 : truthy a.user <;>
    cases h6 : truthy a.author <;>
    cases h7 : truthy a.userName <;>
    simp [List.find?, h1, h2, h3, h4, h5, h6, h7]

/-- Counterexample to C3 as stated: the subtype field is present (the empty
string) and differs from Text, so the claim demands that no record be
produced; because the code takes the first truthy of the two fields, the
Text-valued annotationType wins and a record is produced. -/
theorem claim3_counterexample :
    annSubtypeProbe.subtype = JSVal.str ""
    ∧ annSubtypeProbe.subtype ≠ JSVal.undef
    ∧ extractComments [[annSubtypeProbe]] = Except.ok [⟨1, JSVal.str "", "hi", ""⟩] := by
  refine ⟨rfl, by simp [annSubtypeProbe], rfl⟩

/-- C3 (corrected): with the subtype determined as the first truthy of the
subtype and annotationType fields (defaulting to the empty string), an
annotation whose determined subtype is not exactly the string Text produces no
record. -/
theorem claim3_subtype_filter (p : Nat) (a : Annot)
    (h : subtypeOf a ≠ JSVal.str "Text") :
    processAnnot p a = Except.ok none := by
  rcases hs : subtypeOf a with _ | _ | b | n | s | xs | fs <;>
    simp only [processAnnot, hs] <;> try rfl
  rw [if_neg (fun heq => h (by rw [hs, heq]))]

/-- Witness for C3 at a Highlight annotation. -/
theorem claim3_witness :
    processAnnot 1 ({ subtype := JSVal.str "Highlight" } : Annot) = Except.ok none := by
  exact claim3_subtype_filter 1 _ (by simp [subtypeOf, jsOr, truthy])

/-- Counterexample to C6 as stated: the contents field holds the empty string
and the contentsObj field holds "hello"; the first source of the claimed chain
that yields a non-empty string is the contents-object, so the claim demands a
record with comment "hello" — but the code commits to the string-typed
contents field, which is empty, and skips the annotation. -/
theorem claim6_counterexample :
    annContentsProbe.contentsObj = JSVal.str "hello"
    ∧ extractComments [[annContentsProbe]] = Except.ok [] := by
  refine ⟨rfl, rfl⟩

/-- C6 (corrected): the content source is chosen by shape with short-circuit —
a string-typed contents field is used even when empty (later sources are not
consulted); a truthy object-typed contents is unwrapped through str, text,
array join, JSON.stringify; only otherwise a truthy contentsObj is consulted —
and when the chosen source is a string, the annotation yields a record with
the whitespace-trimmed text exactly when that trim is non-empty, and is
skipped otherwise. -/
theorem claim6_content_chain (p : Nat) (a : Annot) (cs md : String)
    (hsub : subtypeOf a = JSVal.str "Text")
    (hc : contentsOf a = JSVal.str cs)
    (hd : formatDate (modOf a) = Except.ok md) :
    processAnnot p a =
      if jsTrim cs = "" then Except.ok none
      else Except.ok (some ⟨p, authorOf a, jsTrim cs, md⟩) := by
  have hred : processAnnot p a =
      (if cs = "" then Except.ok none
       else if jsTrim cs = "" then Except.ok none
       else (formatDate (modOf a)).map (fun md2 =>
         some ⟨p, authorOf a, jsTrim cs, md2⟩)) := by
    unfold processAnnot
    rw [hsub, hc]
    rfl
  rw [hred]
  by_cases h0 : cs = ""
  · subst h0
    rw [if_pos rfl]
    rw [if_pos (show jsTrim "" = "" from rfl)]
  · rw [if_neg h0]
    by_cases h1 : jsTrim cs = ""
    · rw [if_pos h1, if_pos h1]
    · rw [if_neg h1, if_neg h1, hd]
      rfl

/-- Witness for C6 at an annotation whose comment carries surrounding
whitespace. -/
theorem claim6_witness :
    processAnnot 1 ({ subtype := JSVal.str "Text", contents := JSVal.str "  hi  " } : Annot)
      = Except.ok (some ⟨1, JSVal.str "", "hi", ""⟩) := by
  have h := claim6_content_chain 1
    ({ subtype := JSVal.str "Text", contents := JSVal.str "  hi  " } : Annot)
    "  hi  " "" rfl rfl rfl
  rw [h]
  rfl

theorem intercalate_nil (sep : String) : String.intercalate sep [] = "" := rfl

theorem intercalate_single (sep a : String) : String.intercalate sep [a] = a := rfl

theorem intercalate_pair (sep a b : String) :
    String.intercalate sep [a, b] = a ++ sep ++ b := rfl

theorem intercalate_triple (sep a b c : String) :
    String.intercalate sep [a, b, c] = a ++ sep ++ b ++ sep ++ c := rfl

/-- C9: the human-readable renderer emits, per record, the prefix of the
enabled non-comment fields in the order page (as P followed by the number),
author only when non-empty, modified only when non-empty, joined by
comma-space; the line is prefix, dash, comment when both are present, the bare
comment when the prefix is empty, and the bare prefix when the comment column
is disabled; the per-record lines are joined with exactly two newline
characters.  Stated for records whose author is a string, which is what the
declared record type promises. -/
theorem claim9_text_render (recs : List CommentEntry) (sel : List Nat)
    (cv : ColumnVisibility) (hstr : ∀ c ∈ recs, ∃ s, c.Author = JSVal.str s) :
    formatTextContent recs sel cv =
      if selectedFieldsOf cv = [] then ""
      else String.intercalate "\n\n" ((selectedCommentsOf recs sel).map (specTextLine cv)) := by
  unfold formatTextContent
  by_cases h : selectedFieldsOf cv = []
  · rw [if_pos h, if_pos h]
  · rw [if_neg h, if_neg h]
    dsimp only
    congr 1
    apply List.map_congr_left
    intro c hc
    obtain ⟨s, hs⟩ := hstr c (mem_selectedCommentsOf recs sel c hc)
    simp only [specTextLine, contains_Page, contains_Author, contains_Modified,
      contains_Comment, hs]
    cases hp : cv.Page <;> cases ha : cv.Author <;> cases hm : cv.Modified <;>
      cases hcm : cv.Comment <;>
      by_cases hs0 : s = "" <;> by_cases hm0 : c.Modified = "" <;>
      simp [truthy, jsToStringV, jsElemStrs, hs0, hm0, intercalate_nil,
        intercalate_single, intercalate_pair, intercalate_triple]

/-- Witness for C9 at the two-record example of the specification (page and
author and comment enabled). -/
theorem claim9_witness :
    formatTextContent
      [⟨1, JSVal.str "Alice", "Looks good", ""⟩,
       ⟨2, JSVal.str "", "Fix this", "2023-01-01 12:00:00Z"⟩] []
      ({ Page := true, Author := true, Modified := false, Comment := true,
         checkCol := true } : ColumnVisibility)
      = "P1, Alice - Looks good\n\nP2 - Fix this" := by
  have h := claim9_text_render
    [⟨1, JSVal.str "Alice", "Looks good", ""⟩,
     ⟨2, JSVal.str "", "Fix this", "2023-01-01 12:00:00Z"⟩] []
    ({ Page := true, Author := true, Modified := false, Comment := true,
       checkCol := true } : ColumnVisibility)
    (by
      intro c hc
      rcases List.mem_cons.mp hc with rfl | hc2
      · exact ⟨"Alice", rfl⟩
      · rcases List.mem_singleton.mp hc2 with rfl
        exact ⟨"", rfl⟩)
  rw [h]
  rfl

theorem processAnnot_ok_some (p : Nat) (a : Annot) (c : CommentEntry)
    (h : processAnnot p a = Except.ok (some c)) :
    c.Page = p ∧ c.Comment ≠ "" ∧ jsTrim c.Comment = c.Comment := by
  unfold processAnnot at h
  split at h
  case h_2 => exact absurd h (by simp)
  case h_1 s =>
    split at h
    case isFalse => exact absurd h (by simp)
    case isTrue =>
      split at h
      case h_2 c2 =>
        split at h <;> exact absurd h (by simp)
      case h_1 cs hcs =>
        split at h
        case isTrue => exact absurd h (by simp)
        case isFalse h0 =>
          split at h
          case isTrue => exact absurd h (by simp)
          case isFalse h1 =>
            cases hfd : formatDate (modOf a) with
            | error e =>
                rw [hfd] at h
                exact absurd h (by simp [Except.map])
            | ok md =>
                rw [hfd] at h
                simp only [Except.map, Except.ok.injEq, Option.some.injEq] at h
                subst h
                exact ⟨rfl, h1, jsTrim_idem cs⟩

theorem extractPage_ok (p : Nat) (l : List Annot) (rs : List CommentEntry)
    (h : extractPage p l = Except.ok rs) :
    ∀ r ∈ rs, r.Page = p ∧ r.Comment ≠ "" ∧ jsTrim r.Comment = r.Comment := by
  induction l generalizing rs with
  | nil =>
      simp only [extractPage, Except.ok.injEq] at h
      subst h
      simp
  | cons a t ih =>
      simp only [extractPage] at h
      cases hpa : processAnnot p a with
      | error e => rw [hpa] at h; exact absurd h (by simp)
      | ok r =>
          rw [hpa] at h
          cases ht : extractPage p t with
          | error e => rw [ht] at h; exact absurd h (by simp)
          | ok rs2 =>
              rw [ht] at h
              simp only [Except.ok.injEq] at h
              subst h
              cases r with
              | some c =>
                  intro r hr
                  rcases List.mem_cons.mp hr with rfl | hr2
                  · exact processAnnot_ok_some p a r hpa
                  · exact ih rs2 ht r hr2
              | none => exact ih rs2 ht

theorem pairwise_of_const_page (l : List CommentEntry) (n : Nat)
    (h : ∀ r ∈ l, r.Page = n) : l.Pairwise (fun r1 r2 => r1.Page ≤ r2.Page) := by
  induction l with
  | nil => exact List.Pairwise.nil
  | cons a t ih =>
      refine List.Pairwise.cons (fun b hb => ?_)
        (ih (fun r hr => h r (List.mem_cons_of_mem a hr)))
      rw [h a (List.mem_cons_self a t), h b (List.mem_cons_of_mem a hb)]

theorem extractFrom_ok (n : Nat) (pgs : List (List Annot)) (rs : List CommentEntry)
    (h : extractFrom n pgs = Except.ok rs) :
    (∀ r ∈ rs, n ≤ r.Page ∧ r.Page < n + pgs.length
        ∧ r.Comment ≠ "" ∧ jsTrim r.Comment = r.Comment)
    ∧ rs.Pairwise (fun r1 r2 => r1.Page ≤ r2.Page)
    ∧ (∀ k pg, pgs[k]? = some pg →
        ∃ prs, extractPage (n + k) pg = Except.ok prs
          ∧ rs.filter (fun r => r.Page == n + k) = prs) := by
  induction pgs generalizing n rs with
  | nil =>
      simp only [extractFrom, Except.ok.injEq] at h
      subst h
      refine ⟨by simp, by simp, ?_⟩
      intro k pg hk
      simp at hk
  | cons pg pgs ih =>
      simp only [extractFrom] at h
      cases h1 : extractPage n pg with
      | error e => rw [h1] at h; exact absurd h (by simp)
      | ok rs1 =>
          rw [h1] at h
          cases h2 : extractFrom (n + 1) pgs with
          | error e => rw [h2] at h; exact absurd h (by simp)
          | ok rest =>
              rw [h2] at h
              simp only [Except.ok.injEq] at h
              subst h
              have hpage := extractPage_ok n pg rs1 h1
              have ihh := ih (n + 1) rest h2
              refine ⟨?_, ?_, ?_⟩
              · intro r hr
                rcases List.mem_append.mp hr with hr1 | hr2
                · obtain ⟨hp, hc, ht⟩ := hpage r hr1
                  refine ⟨by omega, by simp; omega, hc, ht⟩
                · obtain ⟨h5, h6, hc, ht⟩ := ihh.1 r hr2
                  refine ⟨by omega, by simp; omega, hc, ht⟩
              · apply List.pairwise_append.mpr
                refine ⟨pairwise_of_const_page rs1 n (fun r hr => (hpage r hr).1),
                  ihh.2.1, ?_⟩
                intro a ha b hb
                have ha2 := (hpage a ha).1
                have hb2 := (ihh.1 b hb).1
                omega
              · intro k pg2 hk
                cases k with
                | zero =>
                    simp only [List.getElem?_cons_zero, Option.some.injEq] at hk
                    subst hk
                    refine ⟨rs1, by simpa using h1, ?_⟩
                    rw [List.filter_append]
                    have e1 : rs1.filter (fun r => r.Page == n + 0) = rs1 :=
                      List.filter_eq_self.mpr (fun r hr => by
                        simp [(hpage r hr).1])
                    have e2 : rest.filter (fun r => r.Page == n + 0) = [] := by
                      rw [List.filter_eq_nil_iff]
                      intro r hr
                      have := (ihh.1 r hr).1
                      simp
                      omega
                    rw [e1, e2, List.append_nil]
                | succ k2 =>
                    simp only [List.getElem?_cons_succ] at hk
                    obtain ⟨prs, hp1, hp2⟩ := ihh.2.2 k2 pg2 hk
                    have harith : n + (k2 + 1) = n + 1 + k2 := by omega
                    refine ⟨prs, by rw [harith]; exact hp1, ?_⟩
                    rw [List.filter_append]
                    have e1 : rs1.filter (fun r => r.Page == n + (k2 + 1)) = [] := by
                      rw [List.filter_eq_nil_iff]
                      intro r hr
                      have := (hpage r hr).1
                      simp
                      omega
                    rw [e1, List.nil_append, harith, hp2]

/-- C4: for every successfully extracted record sequence, each record carries a
non-empty comment equal to its own whitespace-trimmed form and a page number of
at least 1 (and at most the page count); the sequence is ordered by ascending
page number; and the records of page k+1 are exactly the records extracted from
the annotations of page k+1 in the order the parser returned them (the
per-page extraction preserves annotation order). -/
theorem claim4_invariants (doc : List (List Annot)) (recs : List CommentEntry)
    (h : extractComments doc = Except.ok recs) :
    (∀ r ∈ recs, r.Comment ≠ "" ∧ jsTrim r.Comment = r.Comment
        ∧ 1 ≤ r.Page ∧ r.Page ≤ doc.length)
    ∧ recs.Pairwise (fun r1 r2 => r1.Page ≤ r2.Page)
    ∧ (∀ k pg, doc[k]? = some pg →
        ∃ prs, extractPage (k + 1) pg = Except.ok prs
          ∧ recs.filter (fun r => r.Page == k + 1) = prs) := by
  have hh := extractFrom_ok 1 doc recs h
  refine ⟨fun r hr => ?_, hh.2.1, fun k pg hk => ?_⟩
  · obtain ⟨h1, h2, h3, h4⟩ := hh.1 r hr
    exact ⟨h3, h4, h1, by omega⟩
  · obtain ⟨prs, hp1, hp2⟩ := hh.2.2 k pg hk
    have harith : 1 + k = k + 1 := by omega
    rw [harith] at hp1 hp2
    exact ⟨prs, hp1, hp2⟩

/-- Witness for C4 at a concrete two-page document with one plain Text
annotation per page. -/
theorem claim4_witness :
    (∀ r ∈ [(⟨1, JSVal.str "", "Second comment", ""⟩ : CommentEntry),
            ⟨2, JSVal.str "", "Second comment", ""⟩],
        r.Comment ≠ "" ∧ jsTrim r.Comment = r.Comment ∧ 1 ≤ r.Page
          ∧ r.Page ≤ [[annPlain], [annPlain]].length)
    ∧ ([(⟨1, JSVal.str "", "Second comment", ""⟩ : CommentEntry),
        ⟨2, JSVal.str "", "Second comment", ""⟩]).Pairwise
          (fun r1 r2 => r1.Page ≤ r2.Page)
    ∧ (∀ k pg, [[annPlain], [annPlain]][k]? = some pg →
        ∃ prs, extractPage (k + 1) pg = Except.ok prs
          ∧ ([(⟨1, JSVal.str "", "Second comment", ""⟩ : CommentEntry),
              ⟨2, JSVal.str "", "Second comment", ""⟩]).filter
                (fun r => r.Page == k + 1) = prs) :=
  claim4_invariants [[annPlain], [annPlain]]
    [⟨1, JSVal.str "", "Second comment", ""⟩, ⟨2, JSVal.str "", "Second comment", ""⟩] rfl

/-- C1 (divergence exhibited): date normalisation does throw — on the truthy
but unparseable timestamp "not-a-date" the generic Date parse fails and
toISOString raises RangeError: Invalid time value — and because the throw
happens inside the single try/catch around the whole page loop, a document
whose first Text annotation carries such a timestamp aborts the entire run
with that error instead of skipping the one annotation: the record of the
healthy second annotation is lost.  The same second annotation alone extracts
fine. -/
theorem claim1_date_throw :
    formatDate (JSVal.str "not-a-date") = Except.error "Invalid time value"
    ∧ extractComments [[annBadDate, annPlain]] = Except.error "Invalid time value"
    ∧ extractComments [[annPlain]]
        = Except.ok [⟨1, JSVal.str "", "Second comment", ""⟩] := by
  exact ⟨rfl, rfl, rfl⟩

set_option maxHeartbeats 2000000 in
theorem yoe_recovery (c q t doy : Int)
    (hc1 : 0 ≤ c) (hc2 : c ≤ 3) (hq1 : 0 ≤ q) (hq2 : q ≤ 24)
    (ht1 : 0 ≤ t) (ht2 : t ≤ 3)
    (h3 : 0 ≤ doy)
    (h4 : doy ≤ 364 ∨ (doy = 365 ∧ t = 3 ∧ (q ≠ 24 ∨ c = 3))) :
    ((36524 * c + 1461 * q + 365 * t + doy)
      - (36524 * c + 1461 * q + 365 * t + doy) / 1460
      + (36524 * c + 1461 * q + 365 * t + doy) / 36524
      - (36524 * c + 1461 * q + 365 * t + doy) / 146096) / 365
      = 100 * c + 4 * q + t := by
  interval_cases c <;> interval_cases t <;> interval_cases q <;> omega

theorem yoe_doy_recovery (yoe doy : Int)
    (h1 : 0 ≤ yoe) (h2 : yoe ≤ 399) (h3 : 0 ≤ doy)
    (h4 : doy ≤ 364 ∨ (doy = 365 ∧ (((yoe + 1) % 4 = 0 ∧ (yoe + 1) % 100 ≠ 0) ∨ yoe = 399))) :
    (365 * yoe + yoe / 4 - yoe / 100 + doy
      - (365 * yoe + yoe / 4 - yoe / 100 + doy) / 1460
      + (365 * yoe + yoe / 4 - yoe / 100 + doy) / 36524
      - (365 * yoe + yoe / 4 - yoe / 100 + doy) / 146096) / 365 = yoe := by
  have hkey := yoe_recovery (yoe / 100) (yoe % 100 / 4) (yoe % 100 % 4) doy
    (by omega) (by omega) (by omega) (by omega) (by omega) (by omega) h3
    (by omega)
  have hdoe : 365 * yoe + yoe / 4 - yoe / 100 + doy
      = 36524 * (yoe / 100) + 1461 * (yoe % 100 / 4) + 365 * (yoe % 100 % 4) + doy := by
    omega
  rw [hdoe]
  rw [hkey]
  omega


theorem civil_inv_core (yA doy : Int) (h3 : 0 ≤ doy)
    (h4 : doy ≤ 364 ∨ (doy = 365 ∧
      (((yA - 400 * (yA / 400) + 1) % 4 = 0 ∧ (yA - 400 * (yA / 400) + 1) % 100 ≠ 0)
        ∨ yA - 400 * (yA / 400) = 399))) :
    civilFromDays (yA / 400 * 146097
        + (365 * (yA - 400 * (yA / 400)) + (yA - 400 * (yA / 400)) / 4
            - (yA - 400 * (yA / 400)) / 100 + doy) - 719468)
      = (yA + (if (5 * doy + 2) / 153 + (if (5 * doy + 2) / 153 < 10 then 3 else -9) ≤ 2
              then 1 else 0),
         (5 * doy + 2) / 153 + (if (5 * doy + 2) / 153 < 10 then 3 else -9),
         doy - (153 * ((5 * doy + 2) / 153) + 2) / 5 + 1) := by
  have hrec := yoe_doy_recovery (yA - 400 * (yA / 400)) doy (by omega) (by omega) h3 h4
  unfold civilFromDays
  lift_lets
  extract_lets z2 era doe yoe y2 doy2 mp d2 m2
  have hz2 : z2 = yA / 400 * 146097
      + (365 * (yA - 400 * (yA / 400)) + (yA - 400 * (yA / 400)) / 4
          - (yA - 400 * (yA / 400)) / 100 + doy) - 719468 + 719468 := rfl
  have hera : era = z2 / 146097 := rfl
  have hdoe : doe = z2 - era * 146097 := rfl
  have hyoe : yoe = (doe - doe / 1460 + doe / 36524 - doe / 146096) / 365 := rfl
  have hy2 : y2 = yoe + era * 400 := rfl
  have hdoy2 : doy2 = doe - (365 * yoe + yoe / 4 - yoe / 100) := rfl
  have hmp : mp = (5 * doy2 + 2) / 153 := rfl
  have hd2 : d2 = doy2 - (153 * mp + 2) / 5 + 1 := rfl
  have hm2 : m2 = mp + (if mp < 10 then 3 else -9) := rfl
  clear_value z2 era doe yoe y2 doy2 mp d2 m2
  have heraEq : era = yA / 400 := by omega
  have hdoeEq : doe = 365 * (yA - 400 * (yA / 400)) + (yA - 400 * (yA / 400)) / 4
      - (yA - 400 * (yA / 400)) / 100 + doy := by omega
  have hyoeEq : yoe = yA - 400 * (yA / 400) := by
    rw [hyoe, hdoeEq]
    exact hrec
  have hdoy2Eq : doy2 = doy := by
    rw [hdoy2, hyoeEq, hdoeEq]
    omega
  have hy2Eq : y2 = yA := by omega
  have hmpEq : mp = (5 * doy + 2) / 153 := by rw [hmp, hdoy2Eq]
  rw [hy2Eq, hm2, hd2, hmpEq, hdoy2Eq]

theorem roundtrip_m1 (y d : Int) (h3 : 1 ≤ d) (h4 : d ≤ 31) :
    civilFromDays (daysFromCivil y 1 d) = (y, 1, d) := by
  have harg : daysFromCivil y 1 d = (y - 1) / 400 * 146097
      + (365 * ((y - 1) - 400 * ((y - 1) / 400)) + ((y - 1) - 400 * ((y - 1) / 400)) / 4
          - ((y - 1) - 400 * ((y - 1) / 400)) / 100 + (306 + d - 1)) - 719468 := by
    unfold daysFromCivil
    lift_lets
    extract_lets yAdj era yoe mp doy doe
    have e1 : yAdj = (y - 1) := rfl
    have e2 : era = yAdj / 400 := rfl
    have e3 : yoe = yAdj - era * 400 := rfl
    have e4 : mp = 10 := rfl
    have e5 : doy = (153 * mp + 2) / 5 + d - 1 := rfl
    have e6 : doe = yoe * 365 + yoe / 4 - yoe / 100 + doy := rfl
    clear_value yAdj era yoe mp doy doe
    omega
  rw [harg]
  have hcore := civil_inv_core (y - 1) (306 + d - 1) (by omega) (by omega)
  rw [hcore]
  have hmpB : (5 * (306 + d - 1) + 2) / 153 = 10 := by omega
  rw [hmpB]
  first
  | (norm_num; omega)
  | norm_num
  | omega

theorem roundtrip_m2 (y d : Int) (h3 : 1 ≤ d) (h4 : d ≤ 28 ∨ (d = 29 ∧ y % 4 = 0 ∧ y % 100 ≠ 0) ∨ (d = 29 ∧ y % 400 = 0)) :
    civilFromDays (daysFromCivil y 2 d) = (y, 2, d) := by
  have harg : daysFromCivil y 2 d = (y - 1) / 400 * 146097
      + (365 * ((y - 1) - 400 * ((y - 1) / 400)) + ((y - 1) - 400 * ((y - 1) / 400)) / 4
          - ((y - 1) - 400 * ((y - 1) / 400)) / 100 + (337 + d - 1)) - 719468 := by
    unfold daysFromCivil
    lift_lets
    extract_lets yAdj era yoe mp doy doe
    have e1 : yAdj = (y - 1) := rfl
    have e2 : era = yAdj / 400 := rfl
    have e3 : yoe = yAdj - era * 400 := rfl
    have e4 : mp = 11 := rfl
    have e5 : doy = (153 * mp + 2) / 5 + d - 1 := rfl
    have e6 : doe = yoe * 365 + yoe / 4 - yoe / 100 + doy := rfl
    clear_value yAdj era yoe mp doy doe
    omega
  rw [harg]
  have hcore := civil_inv_core (y - 1) (337 + d - 1) (by omega) (by omega)
  rw [hcore]
  have hmpB : (5 * (337 + d - 1) + 2) / 153 = 11 := by omega
  rw [hmpB]
  first
  | (norm_num; omega)
  | norm_num
  | omega

theorem roundtrip_m3 (y d : Int) (h3 : 1 ≤ d) (h4 : d ≤ 31) :
    civilFromDays (daysFromCivil y 3 d) = (y, 3, d) := by
  have harg : daysFromCivil y 3 d = y / 400 * 146097
      + (365 * (y - 400 * (y / 400)) + (y - 400 * (y / 400)) / 4
          - (y - 400 * (y / 400)) / 100 + (d - 1)) - 719468 := by
    unfold daysFromCivil
    lift_lets
    extract_lets yAdj era yoe mp doy doe
    have e1 : yAdj = y := rfl
    have e2 : era = yAdj / 400 := rfl
    have e3 : yoe = yAdj - era * 400 := rfl
    have e4 : mp = 0 := rfl
    have e5 : doy = (153 * mp + 2) / 5 + d - 1 := rfl
    have e6 : doe = yoe * 365 + yoe / 4 - yoe / 100 + doy := rfl
    clear_value yAdj era yoe mp doy doe
    omega
  rw [harg]
  have hcore := civil_inv_core y (d - 1) (by omega) (by omega)
  rw [hcore]
  have hmpB : (5 * (d - 1) + 2) / 153 = 0 := by omega
  rw [hmpB]
  first
  | (norm_num; omega)
  | norm_num
  | omega

theorem roundtrip_m4 (y d : Int) (h3 : 1 ≤ d) (h4 : d ≤ 30) :
    civilFromDays (daysFromCivil y 4 d) = (y, 4, d) := by
  have harg : daysFromCivil y 4 d = y / 400 * 146097
      + (365 * (y - 400 * (y / 400)) + (y - 400 * (y / 400)) / 4
          - (y - 400 * (y / 400)) / 100 + (31 + d - 1)) - 719468 := by
    unfold daysFromCivil
    lift_lets
    extract_lets yAdj era yoe mp doy doe
    have e1 : yAdj = y := rfl
    have e2 : era = yAdj / 400 := rfl
    have e3 : yoe = yAdj - era * 400 := rfl
    have e4 : mp = 1 := rfl
    have e5 : doy = (153 * mp + 2) / 5 + d - 1 := rfl
    have e6 : doe = yoe * 365 + yoe / 4 - yoe / 100 + doy := rfl
    clear_value yAdj era yoe mp doy doe
    omega
  rw [harg]
  have hcore := civil_inv_core y (31 + d - 1) (by omega) (by omega)
  rw [hcore]
  have hmpB : (5 * (31 + d - 1) + 2) / 153 = 1 := by omega
  rw [hmpB]
  first
  | (norm_num; omega)
  | norm_num
  | omega

theorem roundtrip_m5 (y d : Int) (h3 : 1 ≤ d) (h4 : d ≤ 31) :
    civilFromDays (daysFromCivil y 5 d) = (y, 5, d) := by
  have harg : daysFromCivil y 5 d = y / 400 * 146097
      + (365 * (y - 400 * (y / 400)) + (y - 400 * (y / 400)) / 4
          - (y - 400 * (y / 400)) / 100 + (61 + d - 1)) - 719468 := by
    unfold daysFromCivil
    lift_lets
    extract_lets yAdj era yoe mp doy doe
    have e1 : yAdj = y := rfl
    have e2 : era = yAdj / 400 := rfl
    have e3 : yoe = yAdj - era * 400 := rfl
    have e4 : mp = 2 := rfl
    have e5 : doy = (153 * mp + 2) / 5 + d - 1 := rfl
    have e6 : doe = yoe * 365 + yoe / 4 - yoe / 100 + doy := rfl
    clear_value yAdj era yoe mp doy doe
    omega
  rw [harg]
  have hcore := civil_inv_core y (61 + d - 1) (by omega) (by omega)
  rw [hcore]
  have hmpB : (5 * (61 + d - 1) + 2) / 153 = 2 := by omega
  rw [hmpB]
  first
  | (norm_num; omega)
  | norm_num
  | omega

theorem roundtrip_m6 (y d : Int) (h3 : 1 ≤ d) (h4 : d ≤ 30) :
    civilFromDays (daysFromCivil y 6 d) = (y, 6, d) := by
  have harg : daysFromCivil y 6 d = y / 400 * 146097
      + (365 * (y - 400 * (y / 400)) + (y - 400 * (y / 400)) / 4
          - (y - 400 * (y / 400)) / 100 + (92 + d - 1)) - 719468 := by
    unfold daysFromCivil
    lift_lets
    extract_lets yAdj era yoe mp doy doe
    have e1 : yAdj = y := rfl
    have e2 : era = yAdj / 400 := rfl
    have e3 : yoe = yAdj - era * 400 := rfl
    have e4 : mp = 3 := rfl
    have e5 : doy = (153 * mp + 2) / 5 + d - 1 := rfl
    have e6 : doe = yoe * 365 + yoe / 4 - yoe / 100 + doy := rfl
    clear_value yAdj era yoe mp doy doe
    omega
  rw [harg]
  have hcore := civil_inv_core y (92 + d - 1) (by omega) (by omega)
  rw [hcore]
  have hmpB : (5 * (92 + d - 1) + 2) / 153 = 3 := by omega
  rw [hmpB]
  first
  | (norm_num; omega)
  | norm_num
  | omega

theorem roundtrip_m7 (y d : Int) (h3 : 1 ≤ d) (h4 : d ≤ 31) :
    civilFromDays (daysFromCivil y 7 d) = (y, 7, d) := by
  have harg : daysFromCivil y 7 d = y / 400 * 146097
      + (365 * (y - 400 * (y / 400)) + (y - 400 * (y / 400)) / 4
          - (y - 400 * (y / 400)) / 100 + (122 + d - 1)) - 719468 := by
    unfold daysFromCivil
    lift_lets
    extract_lets yAdj era yoe mp doy doe
    have e1 : yAdj = y := rfl
    have e2 : era = yAdj / 400 := rfl
    have e3 : yoe = yAdj - era * 400 := rfl
    have e4 : mp = 4 := rfl
    have e5 : doy = (153 * mp + 2) / 5 + d - 1 := rfl
    have e6 : doe = yoe * 365 + yoe / 4 - yoe / 100 + doy := rfl
    clear_value yAdj era yoe mp doy doe
    omega
  rw [harg]
  have hcore := civil_inv_core y (122 + d - 1) (by omega) (by omega)
  rw [hcore]
  have hmpB : (5 * (122 + d - 1) + 2) / 153 = 4 := by omega
  rw [hmpB]
  first
  | (norm_num; omega)
  | norm_num
  | omega

theorem roundtrip_m8 (y d : Int) (h3 : 1 ≤ d) (h4 : d ≤ 31) :
    civilFromDays (daysFromCivil y 8 d) = (y, 8, d) := by
  have harg : daysFromCivil y 8 d = y / 400 * 146097
      + (365 * (y - 400 * (y / 400)) + (y - 400 * (y / 400)) / 4
          - (y - 400 * (y / 400)) / 100 + (153 + d - 1)) - 719468 := by
    unfold daysFromCivil
    lift_lets
    extract_lets yAdj era yoe mp doy doe
    have e1 : yAdj = y := rfl
    have e2 : era = yAdj / 400 := rfl
    have e3 : yoe = yAdj - era * 400 := rfl
    have e4 : mp = 5 := rfl
    have e5 : doy = (153 * mp + 2) / 5 + d - 1 := rfl
    have e6 : doe = yoe * 365 + yoe / 4 - yoe / 100 + doy := rfl
    clear_value yAdj era yoe mp doy doe
    omega
  rw [harg]
  have hcore := civil_inv_core y (153 + d - 1) (by omega) (by omega)
  rw [hcore]
  have hmpB : (5 * (153 + d - 1) + 2) / 153 = 5 := by omega
  rw [hmpB]
  first
  | (norm_num; omega)
  | norm_num
  | omega

theorem roundtrip_m9 (y d : Int) (h3 : 1 ≤ d) (h4 : d ≤ 30) :
    civilFromDays (daysFromCivil y 9 d) = (y, 9, d) := by
  have harg : daysFromCivil y 9 d = y / 400 * 146097
      + (365 * (y - 400 * (y / 400)) + (y - 400 * (y / 400)) / 4
          - (y - 400 * (y / 400)) / 100 + (184 + d - 1)) - 719468 := by
    unfold daysFromCivil
    lift_lets
    extract_lets yAdj era yoe mp doy doe
    have e1 : yAdj = y := rfl
    have e2 : era = yAdj / 400 := rfl
    have e3 : yoe = yAdj - era * 400 := rfl
    have e4 : mp = 6 := rfl
    have e5 : doy = (153 * mp + 2) / 5 + d - 1 := rfl
    have e6 : doe = yoe * 365 + yoe / 4 - yoe / 100 + doy := rfl
    clear_value yAdj era yoe mp doy doe
    omega
  rw [harg]
  have hcore := civil_inv_core y (184 + d - 1) (by omega) (by omega)
  rw [hcore]
  have hmpB : (5 * (184 + d - 1) + 2) / 153 = 6 := by omega
  rw [hmpB]
  first
  | (norm_num; omega)
  | norm_num
  | omega

theorem roundtrip_m10 (y d : Int) (h3 : 1 ≤ d) (h4 : d ≤ 31) :
    civilFromDays (daysFromCivil y 10 d) = (y, 10, d) := by
  have harg : daysFromCivil y 10 d = y / 400 * 146097
      + (365 * (y - 400 * (y / 400)) + (y - 400 * (y / 400)) / 4
          - (y - 400 * (y / 400)) / 100 + (214 + d - 1)) - 719468 := by
    unfold daysFromCivil
    lift_lets
    extract_lets yAdj era yoe mp doy doe
    have e1 : yAdj = y := rfl
    have e2 : era = yAdj / 400 := rfl
    have e3 : yoe = yAdj - era * 400 := rfl
    have e4 : mp = 7 := rfl
    have e5 : doy = (153 * mp + 2) / 5 + d - 1 := rfl
    have e6 : doe = yoe * 365 + yoe / 4 - yoe / 100 + doy := rfl
    clear_value yAdj era yoe mp doy doe
    omega
  rw [harg]
  have hcore := civil_inv_core y (214 + d - 1) (by omega) (by omega)
  rw [hcore]
  have hmpB : (5 * (214 + d - 1) + 2) / 153 = 7 := by omega
  rw [hmpB]
  first
  | (norm_num; omega)
  | norm_num
  | omega

theorem roundtrip_m11 (y d : Int) (h3 : 1 ≤ d) (h4 : d ≤ 30) :
    civilFromDays (daysFromCivil y 11 d) = (y, 11, d) := by
  have harg : daysFromCivil y 11 d = y / 400 * 146097
      + (365 * (y - 400 * (y / 400)) + (y - 400 * (y / 400)) / 4
          - (y - 400 * (y / 400)) / 100 + (245 + d - 1)) - 719468 := by
    unfold daysFromCivil
    lift_lets
    extract_lets yAdj era yoe mp doy doe
    have e1 : yAdj = y := rfl
    have e2 : era = yAdj / 400 := rfl
    have e3 : yoe = yAdj - era * 400 := rfl
    have e4 : mp = 8 := rfl
    have e5 : doy = (153 * mp + 2) / 5 + d - 1 := rfl
    have e6 : doe = yoe * 365 + yoe / 4 - yoe / 100 + doy := rfl
    clear_value yAdj era yoe mp doy doe
    omega
  rw [harg]
  have hcore := civil_inv_core y (245 + d - 1) (by omega) (by omega)
  rw [hcore]
  have hmpB : (5 * (245 + d - 1) + 2) / 153 = 8 := by omega
  rw [hmpB]
  first
  | (norm_num; omega)
  | norm_num
  | omega

theorem roundtrip_m12 (y d : Int) (h3 : 1 ≤ d) (h4 : d ≤ 31) :
    civilFromDays (daysFromCivil y 12 d) = (y, 12, d) := by
  have harg : daysFromCivil y 12 d = y / 400 * 146097
      + (365 * (y - 400 * (y / 400)) + (y - 400 * (y / 400)) / 4
          - (y - 400 * (y / 400)) / 100 + (275 + d - 1)) - 719468 := by
    unfold daysFromCivil
    lift_lets
    extract_lets yAdj era yoe mp doy doe
    have e1 : yAdj = y := rfl
    have e2 : era = yAdj / 400 := rfl
    have e3 : yoe = yAdj - era * 400 := rfl
    have e4 : mp = 9 := rfl
    have e5 : doy = (153 * mp + 2) / 5 + d - 1 := rfl
    have e6 : doe = yoe * 365 + yoe / 4 - yoe / 100 + doy := rfl
    clear_value yAdj era yoe mp doy doe
    omega
  rw [harg]
  have hcore := civil_inv_core y (275 + d - 1) (by omega) (by omega)
  rw [hcore]
  have hmpB : (5 * (275 + d - 1) + 2) / 153 = 9 := by omega
  rw [hmpB]
  first
  | (norm_num; omega)
  | norm_num
  | omega

theorem civil_roundtrip (y m d : Int) (h1 : 1 ≤ m) (h2 : m ≤ 12)
    (h3 : 1 ≤ d) (h4 : d ≤ daysInMonthI y m) :
    civilFromDays (daysFromCivil y m d) = (y, m, d) := by
  unfold daysInMonthI at h4
  interval_cases m
  · exact roundtrip_m1 y d h3 (by norm_num at h4; exact h4)
  · refine roundtrip_m2 y d h3 ?_
    rw [if_pos rfl] at h4
    cases hL : isLeap y with
    | true =>
        rw [hL, if_pos rfl] at h4
        unfold isLeap at hL
        simp only [Bool.or_eq_true, Bool.and_eq_true, beq_iff_eq, bne_iff_ne] at hL
        omega
    | false =>
        rw [hL] at h4
        norm_num at h4
        omega
  · exact roundtrip_m3 y d h3 (by norm_num at h4; exact h4)
  · exact roundtrip_m4 y d h3 (by norm_num at h4; exact h4)
  · exact roundtrip_m5 y d h3 (by norm_num at h4; exact h4)
  · exact roundtrip_m6 y d h3 (by norm_num at h4; exact h4)
  · exact roundtrip_m7 y d h3 (by norm_num at h4; exact h4)
  · exact roundtrip_m8 y d h3 (by norm_num at h4; exact h4)
  · exact roundtrip_m9 y d h3 (by norm_num at h4; exact h4)
  · exact roundtrip_m10 y d h3 (by norm_num at h4; exact h4)
  · exact roundtrip_m11 y d h3 (by norm_num at h4; exact h4)
  · exact roundtrip_m12 y d h3 (by norm_num at h4; exact h4)

theorem daysFromCivil_range (y mo d : Int) (hy : 0 ≤ y) (hy2 : y ≤ 9999)
    (h1 : 1 ≤ mo) (h2 : mo ≤ 12) (h3 : 1 ≤ d) (h4 : d ≤ 31) :
    -730000 ≤ daysFromCivil y mo d ∧ daysFromCivil y mo d ≤ 2940000 := by
  unfold daysFromCivil
  lift_lets
  extract_lets yAdj era yoe mp doy doe
  have e1 : yAdj = if mo ≤ 2 then y - 1 else y := rfl
  have e2 : era = yAdj / 400 := rfl
  have e3 : yoe = yAdj - era * 400 := rfl
  have e4 : mp = (mo + 9) % 12 := rfl
  have e5 : doy = (153 * mp + 2) / 5 + d - 1 := rfl
  have e6 : doe = yoe * 365 + yoe / 4 - yoe / 100 + doy := rfl
  clear_value yAdj era yoe mp doy doe
  have e1b : yAdj = y - 1 ∨ yAdj = y := by
    rw [e1]
    by_cases hc : mo ≤ 2
    · rw [if_pos hc]; exact Or.inl rfl
    · rw [if_neg hc]; exact Or.inr rfl
  omega

theorem jsToISO_valid (y mo d h mi s : Int)
    (hy : 100 ≤ y) (hy2 : y ≤ 9999) (hmo1 : 1 ≤ mo) (hmo2 : mo ≤ 12)
    (hd1 : 1 ≤ d) (hd2 : d ≤ daysInMonthI y mo)
    (hh1 : 0 ≤ h) (hh2 : h ≤ 23) (hmi1 : 0 ≤ mi) (hmi2 : mi ≤ 59)
    (hs1 : 0 ≤ s) (hs2 : s ≤ 59) :
    jsToISOStringE (daysFromCivil y mo d * 86400000 + (h * 3600000 + mi * 60000 + s * 1000))
      = Except.ok (pad4 y.toNat ++ "-" ++ pad2 mo.toNat ++ "-" ++ pad2 d.toNat ++ "T"
          ++ pad2 h.toNat ++ ":" ++ pad2 mi.toNat ++ ":" ++ pad2 s.toNat
          ++ "." ++ pad3 0 ++ "Z") := by
  have hd31 : d ≤ 31 := by
    unfold daysInMonthI at hd2
    by_cases hA : mo = 2
    · rw [if_pos hA] at hd2
      cases hL : isLeap y <;> rw [hL] at hd2 <;> omega
    · rw [if_neg hA] at hd2
      by_cases hB : mo = 4 ∨ mo = 6 ∨ mo = 9 ∨ mo = 11
      · rw [if_pos hB] at hd2; omega
      · rw [if_neg hB] at hd2; omega
  have hrange := daysFromCivil_range y mo d (by omega) hy2 hmo1 hmo2 hd1 hd31
  have hrt := civil_roundtrip y mo d hmo1 hmo2 hd1 hd2
  unfold jsToISOStringE
  rw [if_neg (by omega)]
  lift_lets
  extract_lets msV sV miV hV dayV cV yearStrV
  have e1 : msV = (daysFromCivil y mo d * 86400000 + (h * 3600000 + mi * 60000 + s * 1000)) % 1000 := rfl
  have e2 : sV = (daysFromCivil y mo d * 86400000 + (h * 3600000 + mi * 60000 + s * 1000)) / 1000 % 60 := rfl
  have e3 : miV = (daysFromCivil y mo d * 86400000 + (h * 3600000 + mi * 60000 + s * 1000)) / 60000 % 60 := rfl
  have e4 : hV = (daysFromCivil y mo d * 86400000 + (h * 3600000 + mi * 60000 + s * 1000)) / 3600000 % 24 := rfl
  have e5 : dayV = (daysFromCivil y mo d * 86400000 + (h * 3600000 + mi * 60000 + s * 1000)) / 86400000 := rfl
  have e6 : cV = civilFromDays dayV := rfl
  have e7 : yearStrV = (if 0 ≤ cV.1 ∧ cV.1 ≤ 9999 then pad4 cV.1.toNat
      else if cV.1 < 0 then "-" ++ pad6 cV.1.natAbs else "+" ++ pad6 cV.1.toNat) := rfl
  have hdayEq : dayV = daysFromCivil y mo d := by
    rw [e5]
    omega
  have hcEq : cV = (y, mo, d) := by
    rw [e6, hdayEq, hrt]
  have hmsEq : msV = 0 := by rw [e1]; omega
  have hsEq : sV = s := by rw [e2]; omega
  have hmiEq : miV = mi := by rw [e3]; omega
  have hhEq : hV = h := by rw [e4]; omega
  have hyearEq : yearStrV = pad4 y.toNat := by
    rw [e7, hcEq]
    exact if_pos ⟨by omega, hy2⟩
  clear_value msV sV miV hV dayV cV yearStrV
  rw [hcEq, hmsEq, hsEq, hmiEq, hhEq, hyearEq]
  rfl

theorem dateUTC_valid (y mo d h mi s : Int) (h1 : 1 ≤ mo) (h2 : mo ≤ 12) :
    dateUTC y (mo - 1) d h mi s
      = daysFromCivil (twoDigitYearFix y) mo d * 86400000
        + (h * 3600000 + mi * 60000 + s * 1000) := by
  unfold dateUTC mkDay
  have e1 : (mo - 1) / 12 = 0 := by omega
  have e2 : (mo - 1) % 12 + 1 = mo := by omega
  rw [e1, e2, add_zero]

theorem data_mk (l : List Char) : (String.mk l).data = l := rfl

theorem digitChar_isDigit (k : Nat) : (digitChar k).isDigit = true := by
  unfold digitChar
  have h : k % 10 < 10 := Nat.mod_lt _ (by omega)
  set r := k % 10 with hr
  interval_cases r <;> rfl

theorem charVal_digitChar (k : Nat) : charVal (digitChar k) = k % 10 := by
  unfold digitChar charVal
  have h : k % 10 < 10 := Nat.mod_lt _ (by omega)
  set r := k % 10 with hr
  interval_cases r <;> rfl

theorem digitChar_ne (k : Nat) (c : Char) (hc : c.isDigit = false) : digitChar k ≠ c :=
  fun h => by
    have h2 := digitChar_isDigit k
    rw [h, hc] at h2
    cases h2

theorem tryMatch_digits (c1 c2 c3 c4 c5 c6 c7 c8 c9 c10 c11 c12 c13 c14 : Char)
    (rest : List Char)
    (h1 : c1.isDigit = true) (h2 : c2.isDigit = true) (h3 : c3.isDigit = true)
    (h4 : c4.isDigit = true) (h5 : c5.isDigit = true) (h6 : c6.isDigit = true)
    (h7 : c7.isDigit = true) (h8 : c8.isDigit = true) (h9 : c9.isDigit = true)
    (h10 : c10.isDigit = true) (h11 : c11.isDigit = true) (h12 : c12.isDigit = true)
    (h13 : c13.isDigit = true) (h14 : c14.isDigit = true) :
    tryMatchPdfDate ('D' :: ':' :: c1 :: c2 :: c3 :: c4 :: c5 :: c6 :: c7 :: c8 :: c9 ::
        c10 :: c11 :: c12 :: c13 :: c14 :: rest)
      = some (1000 * charVal c1 + 100 * charVal c2 + 10 * charVal c3 + charVal c4,
              10 * charVal c5 + charVal c6,
              10 * charVal c7 + charVal c8,
              10 * charVal c9 + charVal c10,
              10 * charVal c11 + charVal c12,
              10 * charVal c13 + charVal c14) := by
  have hred : tryMatchPdfDate ('D' :: ':' :: c1 :: c2 :: c3 :: c4 :: c5 :: c6 :: c7 :: c8 ::
        c9 :: c10 :: c11 :: c12 :: c13 :: c14 :: rest)
      = if (c1.isDigit && c2.isDigit && c3.isDigit && c4.isDigit && c5.isDigit &&
            c6.isDigit && c7.isDigit && c8.isDigit && c9.isDigit && c10.isDigit &&
            c11.isDigit && c12.isDigit && c13.isDigit && c14.isDigit) then
          some (1000 * charVal c1 + 100 * charVal c2 + 10 * charVal c3 + charVal c4,
                10 * charVal c5 + charVal c6,
                10 * charVal c7 + charVal c8,
                10 * charVal c9 + charVal c10,
                10 * charVal c11 + charVal c12,
                10 * charVal c13 + charVal c14)
        else none := rfl
  rw [hred, h1, h2, h3, h4, h5, h6, h7, h8, h9, h10, h11, h12, h13, h14]
  rfl

theorem execDateRegex_head (c : Char) (rest : List Char)
    (r : Nat × Nat × Nat × Nat × Nat × Nat)
    (h : tryMatchPdfDate (c :: rest) = some r) : execDateRegex (c :: rest) = some r := by
  unfold execDateRegex
  rw [h]

theorem jsReplaceOnce_first (p : Char) (ps l2 rep : List Char) :
    ∀ l1 : List Char, p ∉ l1 →
      jsReplaceOnce (l1 ++ (p :: ps) ++ l2) (p :: ps) rep = l1 ++ rep ++ l2 := by
  intro l1
  induction l1 with
  | nil =>
      intro _
      simp only [List.nil_append]
      rw [List.cons_append]
      have hred : jsReplaceOnce (p :: (ps ++ l2)) (p :: ps) rep
          = if (p :: ps).isPrefixOf (p :: (ps ++ l2)) then
              rep ++ (p :: (ps ++ l2)).drop (p :: ps).length
            else p :: jsReplaceOnce (ps ++ l2) (p :: ps) rep := rfl
      have hpre : ((p :: ps).isPrefixOf (p :: (ps ++ l2))) = true := by
        rw [← List.cons_append]
        exact List.isPrefixOf_iff_prefix.mpr (List.prefix_append _ _)
      rw [hred, if_pos hpre]
      congr 1
      rw [← List.cons_append, List.drop_left]
  | cons a t ih =>
      intro hne
      have hap : ¬ (p = a) := fun hcontr => hne (by rw [hcontr]; exact List.mem_cons_self a t)
      have hnt : p ∉ t := fun hcontr => hne (List.mem_cons_of_mem a hcontr)
      have hpref : ((p :: ps).isPrefixOf (a :: (t ++ (p :: ps) ++ l2))) = false := by
        rw [Bool.eq_false_iff]
        intro hcontr
        rcases List.isPrefixOf_iff_prefix.mp hcontr with ⟨u, hu⟩
        rw [List.cons_append] at hu
        injection hu with h1 _
        exact hap h1
      have hred : jsReplaceOnce (a :: (t ++ (p :: ps) ++ l2)) (p :: ps) rep
          = if (p :: ps).isPrefixOf (a :: (t ++ (p :: ps) ++ l2)) then
              rep ++ (a :: (t ++ (p :: ps) ++ l2)).drop (p :: ps).length
            else a :: jsReplaceOnce (t ++ (p :: ps) ++ l2) (p :: ps) rep := rfl
      calc jsReplaceOnce ((a :: t) ++ (p :: ps) ++ l2) (p :: ps) rep
          = jsReplaceOnce (a :: (t ++ (p :: ps) ++ l2)) (p :: ps) rep := by
            rw [List.cons_append, List.cons_append]
        _ = a :: jsReplaceOnce (t ++ (p :: ps) ++ l2) (p :: ps) rep := by
            rw [hred, hpref]
            simp
        _ = a :: (t ++ rep ++ l2) := by rw [ih hnt]
        _ = (a :: t) ++ rep ++ l2 := by simp

theorem mem_pad4 (c : Char) (y : Nat) (h : c ∈ (pad4 y).data) : c.isDigit = true := by
  simp only [pad4, data_mk, List.mem_cons, List.not_mem_nil, or_false] at h
  rcases h with rfl | rfl | rfl | rfl <;> exact digitChar_isDigit _

theorem mem_pad2 (c : Char) (n : Nat) (h : c ∈ (pad2 n).data) : c.isDigit = true := by
  simp only [pad2, data_mk, List.mem_cons, List.not_mem_nil, or_false] at h
  rcases h with rfl | rfl <;> exact digitChar_isDigit _

theorem notMem_append (c : Char) (l1 l2 : List Char) (h1 : c ∉ l1) (h2 : c ∉ l2) :
    c ∉ l1 ++ l2 := fun hm => (List.mem_append.mp hm).elim h1 h2

theorem notMem_cons (c a : Char) (l : List Char) (h1 : c ≠ a) (h2 : c ∉ l) :
    c ∉ a :: l := by
  intro hm
  rcases List.mem_cons.mp hm with h | h
  · exact h1 h
  · exact h2 h

theorem notMem_pad4 (c : Char) (y : Nat) (h : c.isDigit = false) : c ∉ (pad4 y).data :=
  fun hm => by
    rw [mem_pad4 c y hm] at h
    cases h

theorem notMem_pad2 (c : Char) (n : Nat) (h : c.isDigit = false) : c ∉ (pad2 n).data :=
  fun hm => by
    rw [mem_pad2 c n hm] at h
    cases h

theorem formatDate_pdf (y mo d h mi s : Nat) (suffix : String)
    (hy : y ≤ 9999) (hmo1 : 1 ≤ mo) (hmo2 : mo ≤ 12) (hd1 : 1 ≤ d)
    (hd2 : (d : Int) ≤ daysInMonthI (((if y ≤ 99 then 1900 + y else y : Nat) : Int)) ((mo : Int)))
    (hh : h ≤ 23) (hmi : mi ≤ 59) (hs : s ≤ 59) :
    formatDate (JSVal.str
        ("D:" ++ pad4 y ++ pad2 mo ++ pad2 d ++ pad2 h ++ pad2 mi ++ pad2 s ++ suffix))
      = Except.ok (pad4 (if y ≤ 99 then 1900 + y else y) ++ "-" ++ pad2 mo ++ "-" ++ pad2 d
          ++ " " ++ pad2 h ++ ":" ++ pad2 mi ++ ":" ++ pad2 s ++ "Z") := by
  set yr := if y ≤ 99 then 1900 + y else y with hyr
  have hyr1 : 100 ≤ yr := by rw [hyr]; split <;> omega
  have hyr2 : yr ≤ 9999 := by rw [hyr]; split <;> omega
  have hd31 : d ≤ 31 := by
    have hx := hd2
    unfold daysInMonthI at hx
    split_ifs at hx <;> omega
  have hdata : ("D:" ++ pad4 y ++ pad2 mo ++ pad2 d ++ pad2 h ++ pad2 mi ++ pad2 s
        ++ suffix).data
      = 'D' :: ':' :: digitChar (y / 1000) :: digitChar (y / 100) :: digitChar (y / 10) ::
        digitChar y :: digitChar (mo / 10) :: digitChar mo :: digitChar (d / 10) ::
        digitChar d :: digitChar (h / 10) :: digitChar h :: digitChar (mi / 10) ::
        digitChar mi :: digitChar (s / 10) :: digitChar s :: suffix.data := by
    simp [String.data_append, pad4, pad2, data_mk,
      show ("D:" : String).data = ['D', ':'] from rfl]
  have hvals : ((1000 * charVal (digitChar (y / 1000)) + 100 * charVal (digitChar (y / 100))
        + 10 * charVal (digitChar (y / 10)) + charVal (digitChar y),
        10 * charVal (digitChar (mo / 10)) + charVal (digitChar mo),
        10 * charVal (digitChar (d / 10)) + charVal (digitChar d),
        10 * charVal (digitChar (h / 10)) + charVal (digitChar h),
        10 * charVal (digitChar (mi / 10)) + charVal (digitChar mi),
        10 * charVal (digitChar (s / 10)) + charVal (digitChar s))
        : Nat × Nat × Nat × Nat × Nat × Nat) = (y, mo, d, h, mi, s) := by
    simp only [charVal_digitChar, Prod.mk.injEq]
    refine ⟨by omega, by omega, by omega, by omega, by omega, by omega⟩
  have htm := tryMatch_digits (digitChar (y / 1000)) (digitChar (y / 100))
    (digitChar (y / 10)) (digitChar y) (digitChar (mo / 10)) (digitChar mo)
    (digitChar (d / 10)) (digitChar d) (digitChar (h / 10)) (digitChar h)
    (digitChar (mi / 10)) (digitChar mi) (digitChar (s / 10)) (digitChar s) suffix.data
    (digitChar_isDigit _) (digitChar_isDigit _) (digitChar_isDigit _) (digitChar_isDigit _)
    (digitChar_isDigit _) (digitChar_isDigit _) (digitChar_isDigit _) (digitChar_isDigit _)
    (digitChar_isDigit _) (digitChar_isDigit _) (digitChar_isDigit _) (digitChar_isDigit _)
    (digitChar_isDigit _) (digitChar_isDigit _)
  have hexec : execDateRegex ("D:" ++ pad4 y ++ pad2 mo ++ pad2 d ++ pad2 h ++ pad2 mi
        ++ pad2 s ++ suffix).data = some (y, mo, d, h, mi, s) := by
    rw [hdata]
    exact execDateRegex_head _ _ _ (htm.trans (congrArg some hvals))
  have htruthy : truthy (JSVal.str ("D:" ++ pad4 y ++ pad2 mo ++ pad2 d ++ pad2 h
        ++ pad2 mi ++ pad2 s ++ suffix)) = true := by
    simp only [truthy]
    refine bne_iff_ne.mpr ?_
    intro hcontr
    have hc2 := congrArg String.data hcontr
    rw [hdata] at hc2
    simp at hc2
  have hform : formatDate (JSVal.str ("D:" ++ pad4 y ++ pad2 mo ++ pad2 d ++ pad2 h
        ++ pad2 mi ++ pad2 s ++ suffix))
      = (jsToISOStringE (dateUTC ((y : Int)) ((mo : Int) - 1) ((d : Int))
          ((h : Int)) ((mi : Int)) ((s : Int)))).map
          (fun iso => jsStrReplace (jsStrReplace iso "T" " ") ".000Z" "Z") := by
    unfold formatDate
    rw [if_neg (by simp [htruthy])]
    simp only [jsToStringV]
    rw [hexec]
  rw [hform, dateUTC_valid ((y : Int)) ((mo : Int)) ((d : Int)) ((h : Int))
    ((mi : Int)) ((s : Int)) (by omega) (by omega)]
  have hfix : twoDigitYearFix ((y : Int)) = (yr : Int) := by
    rw [hyr]
    unfold twoDigitYearFix
    split_ifs <;> omega
  rw [hfix]
  rw [jsToISO_valid ((yr : Int)) ((mo : Int)) ((d : Int)) ((h : Int))
    ((mi : Int)) ((s : Int)) (by omega) (by omega) (by omega) (by omega) (by omega)
    hd2 (by omega) (by omega) (by omega) (by omega) (by omega) (by omega)]
  simp only [Except.map, Int.toNat_natCast]
  congr 1
  have hT : 'T' ∉ ((pad4 yr).data ++ ('-' :: (pad2 mo).data) ++ ('-' :: (pad2 d).data)) :=
    notMem_append 'T' _ _
      (notMem_append 'T' _ _ (notMem_pad4 'T' yr (by decide))
        (notMem_cons 'T' '-' _ (by decide) (notMem_pad2 'T' mo (by decide))))
      (notMem_cons 'T' '-' _ (by decide) (notMem_pad2 'T' d (by decide)))
  have hDot : '.' ∉ (((pad4 yr).data ++ ('-' :: (pad2 mo).data) ++ ('-' :: (pad2 d).data))
      ++ (' ' :: (pad2 h).data) ++ (':' :: (pad2 mi).data) ++ (':' :: (pad2 s).data)) :=
    notMem_append '.' _ _
      (notMem_append '.' _ _
        (notMem_append '.' _ _
          (notMem_append '.' _ _
            (notMem_append '.' _ _ (notMem_pad4 '.' yr (by decide))
              (notMem_cons '.' '-' _ (by decide) (notMem_pad2 '.' mo (by decide))))
            (notMem_cons '.' '-' _ (by decide) (notMem_pad2 '.' d (by decide))))
          (notMem_cons '.' ' ' _ (by decide) (notMem_pad2 '.' h (by decide))))
        (notMem_cons '.' ':' _ (by decide) (notMem_pad2 '.' mi (by decide))))
      (notMem_cons '.' ':' _ (by decide) (notMem_pad2 '.' s (by decide)))
  have hrepl1 := jsReplaceOnce_first 'T' [] ((pad2 h).data ++ (':' :: (pad2 mi).data)
      ++ (':' :: (pad2 s).data) ++ ('.' :: ('0' :: '0' :: '0' :: 'Z' :: []))) [' ']
      ((pad4 yr).data ++ ('-' :: (pad2 mo).data) ++ ('-' :: (pad2 d).data)) hT
  have hrepl2 := jsReplaceOnce_first '.' ['0', '0', '0', 'Z'] [] ['Z']
      (((pad4 yr).data ++ ('-' :: (pad2 mo).data) ++ ('-' :: (pad2 d).data))
        ++ (' ' :: (pad2 h).data) ++ (':' :: (pad2 mi).data) ++ (':' :: (pad2 s).data)) hDot
  simp only [jsStrReplace, data_mk, String.data_append, pad4, pad2, pad3,
    show ("T" : String).data = ['T'] from rfl,
    show (" " : String).data = [' '] from rfl,
    show ("-" : String).data = ['-'] from rfl,
    show (":" : String).data = [':'] from rfl,
    show ("." : String).data = ['.'] from rfl,
    show ("Z" : String).data = ['Z'] from rfl,
    show (".000Z" : String).data = ['.', '0', '0', '0', 'Z'] from rfl,
    show digitChar 0 = '0' from rfl,
    List.cons_append, List.nil_append, List.append_assoc, List.append_nil] at hrepl1 hrepl2 ⊢
  rw [hrepl1, hrepl2]
  exact congrArg String.mk rfl |>.trans rfl

/-- C2 counterexample: the timestamp D:00230615143022 begins with D: and 14
digits, so the claim promises 0023-06-15 14:30:22Z; the code feeds year 23 to
Date.UTC, whose two-digit-year rule maps 0 ≤ y ≤ 99 to 1900 + y, so the
output year is 1923. -/
theorem claim2_counterexample :
    formatDate (JSVal.str "D:00230615143022") = Except.ok "1923-06-15 14:30:22Z" ∧
    "1923-06-15 14:30:22Z" ≠ "0023-06-15 14:30:22Z" :=
  ⟨rfl, by decide⟩

/-- C2 (corrected): for a timestamp D: followed by 14 digits encoding a valid
calendar date-time (month 1-12, day within the month, hour ≤ 23, minute and
second ≤ 59) and any suffix, formatDate returns YYYY-MM-DD HH:MM:SSZ where the
year is the encoded year for 100-9999 but 1900 plus the encoded year for 0-99
(the Date.UTC two-digit-year rule); the empty timestamp yields the empty
string. -/
theorem claim2_pdf_format (y mo d h mi s : Nat) (suffix : String)
    (hy : y ≤ 9999) (hmo1 : 1 ≤ mo) (hmo2 : mo ≤ 12) (hd1 : 1 ≤ d)
    (hd2 : (d : Int) ≤ daysInMonthI (((if y ≤ 99 then 1900 + y else y : Nat) : Int)) ((mo : Int)))
    (hh : h ≤ 23) (hmi : mi ≤ 59) (hs : s ≤ 59) :
    formatDate (JSVal.str
        ("D:" ++ pad4 y ++ pad2 mo ++ pad2 d ++ pad2 h ++ pad2 mi ++ pad2 s ++ suffix))
      = Except.ok (pad4 (if y ≤ 99 then 1900 + y else y) ++ "-" ++ pad2 mo ++ "-" ++ pad2 d
          ++ " " ++ pad2 h ++ ":" ++ pad2 mi ++ ":" ++ pad2 s ++ "Z")
    ∧ formatDate (JSVal.str "") = Except.ok "" :=
  ⟨formatDate_pdf y mo d h mi s suffix hy hmo1 hmo2 hd1 hd2 hh hmi hs, rfl⟩

/-- Witness for C2 at the claim's own example D:20230615143022. -/
theorem claim2_witness :
    formatDate (JSVal.str "D:20230615143022") = Except.ok "2023-06-15 14:30:22Z" ∧
    formatDate (JSVal.str "") = Except.ok "" := by
  have hc := claim2_pdf_format 2023 6 15 14 30 22 "" (by decide) (by decide) (by decide)
    (by decide) (by decide) (by decide) (by decide) (by decide)
  exact hc
